/-
Verification of the ffmalloc allocator core (src/ffmalloc.c) against its
natural-language specification.

The development shallowly embeds the allocator in Lean: machine integers
(size_t, uintptr_t) become Nat with explicit bounds where overflow matters
(SIZE_MAX = 2^64 - 1); the C bit-masking idioms over low status bits become
explicit arithmetic on Nat; fallible or undefined C evaluations become
explicit result constructors.  All definitions follow the default Linux
build of the source: no FF_EIGHTBYTEALIGN (so MIN_ALIGNMENT = 16), no
FFSINGLE_THREADED, no MARK_SWEEP, no FF_PROFILE; the 8-byte-alignment
variants of the size-classing macros are embedded under ...8 names where a
claim speaks about both builds.
-/
import Mathlib

namespace FFMalloc

/-! ### Library constants (ffmalloc.c lines 104-226) -/

/-- C `SIZE_MAX` for the 64-bit targets the allocator supports. -/
def SIZE_MAX : Nat := 2 ^ 64 - 1

/-- POOL_SIZE_BITS = 21. -/
def POOL_SIZE_BITS : Nat := 21

/-- POOL_SIZE = 1 << POOL_SIZE_BITS = 2 MiB. -/
def POOL_SIZE : Nat := 2 ^ POOL_SIZE_BITS

/-- PAGE_SIZE = 4096. -/
def PAGE_SIZE : Nat := 4096

/-- HALF_PAGE = 2048. -/
def HALF_PAGE : Nat := 2048

/-- Default build (16-byte alignment): MIN_ALIGNMENT = 16. -/
def MIN_ALIGNMENT : Nat := 16

/-- Default build: BIN_COUNT = 32. -/
def BIN_COUNT : Nat := 32

/-- Default build: BIN_INFLECTION = 13. -/
def BIN_INFLECTION : Nat := 13

/-- FF_EIGHTBYTEALIGN build: MIN_ALIGNMENT = 8. -/
def MIN_ALIGNMENT8 : Nat := 8

/-- FF_EIGHTBYTEALIGN build: BIN_COUNT = 45. -/
def BIN_COUNT8 : Nat := 45

/-- C `n & ~SEVEN64`: clear the three low status bits. -/
def mask7 (n : Nat) : Nat := n - n % 8

/-- C `n & SEVEN64`: the three low status bits. -/
def low3 (n : Nat) : Nat := n % 8

/-- C `n & ~THREE64`: clear the two low bits. -/
def mask3 (n : Nat) : Nat := n - n % 4

/-- ALIGN_SIZE macro of the default build (line 215):
`SIZE <= 8 ? 8 : ((SIZE + FIFTEEN64) & ~FIFTEEN64)`.  The bit-mask is
rewritten as subtraction of the remainder, which is the same function on
Nat. -/
def ALIGN_SIZE (size : Nat) : Nat :=
  if size ≤ 8 then 8 else (size + 15) - (size + 15) % 16

/-- ALIGN_SIZE macro of the FF_EIGHTBYTEALIGN build (line 194):
`(SIZE + SEVEN64) & ~SEVEN64`. -/
def ALIGN_SIZE8 (size : Nat) : Nat := (size + 7) - (size + 7) % 8

/-- ALIGN_TO macro (line 225): `(VALUE + (ALIGNMENT - 1)) & ~(ALIGNMENT - 1)`.
Every call site passes a power-of-two alignment, for which the bit-mask
form agrees with subtracting the remainder. -/
def ALIGN_TO (value alignment : Nat) : Nat :=
  (value + (alignment - 1)) - (value + (alignment - 1)) % alignment

/-- GET_BIN macro of the default build (line 222):
`SIZE <= 8 ? 0 : SIZE <= 304 ? BIN_COUNT - (SIZE >> 4) : PAGE_SIZE / SIZE`. -/
def GET_BIN (size : Nat) : Nat :=
  if size ≤ 8 then 0
  else if size ≤ 304 then BIN_COUNT - size / 16
  else PAGE_SIZE / size

/-- GET_BIN macro of the FF_EIGHTBYTEALIGN build (line 200):
`SIZE <= 208 ? BIN_COUNT - (SIZE >> 3) : PAGE_SIZE / SIZE`. -/
def GET_BIN8 (size : Nat) : Nat :=
  if size ≤ 208 then BIN_COUNT8 - size / 8
  else PAGE_SIZE / size

/-- Allocation size of thread-cache bin `i` in the default build, as
installed by init_tcache (lines 1576-1618): bin 0 holds 8-byte slots;
bins 1..BIN_INFLECTION-1 are max-packed, `(PAGE_SIZE / b) & ~15`;
bins BIN_INFLECTION..BIN_COUNT-1 hold `(BIN_COUNT - i) * 16`-byte slots. -/
def binAllocSize (i : Nat) : Nat :=
  if i = 0 then 8
  else if i < BIN_INFLECTION then (PAGE_SIZE / i) - (PAGE_SIZE / i) % 16
  else (BIN_COUNT - i) * MIN_ALIGNMENT

/-- Capacity (maxAlloc) of thread-cache bin `i` in the default build, from
init_tcache: bin 0 holds PAGE_SIZE / 8 slots; max-packed bins hold `b`
slots; stride bins hold PAGE_SIZE / allocSize slots. -/
def binMaxAlloc (i : Nat) : Nat :=
  if i = 0 then PAGE_SIZE / 8
  else if i < BIN_INFLECTION then i
  else PAGE_SIZE / ((BIN_COUNT - i) * MIN_ALIGNMENT)

/-- Allocation size of bin `i` in the FF_EIGHTBYTEALIGN build, from
init_tcache: bins 1..BIN_INFLECTION8-1 are max-packed,
`(PAGE_SIZE / b) & ~7`; bins BIN_INFLECTION8..BIN_COUNT8-1 hold
`(BIN_COUNT8 - i) * 8`-byte slots (BIN_INFLECTION8 = 19). -/
def binAllocSize8 (i : Nat) : Nat :=
  if i = 0 then 0
  else if i < 19 then (PAGE_SIZE / i) - (PAGE_SIZE / i) % 8
  else (BIN_COUNT8 - i) * MIN_ALIGNMENT8

/-! ### calloc / reallocarray overflow guards (lines 4629-4670) -/

/-- Result of the element-count entry points before any allocator state is
touched.  `forward bytes` means control reaches the underlying
ffmalloc/ffrealloc call with the given byte count; `overflowNull` means the
overflow guard returned NULL immediately; `undefinedDivByZero` marks the C
expression `SIZE_MAX / nmemb` being evaluated with `nmemb == 0`, which is
undefined behaviour (SIGFPE on x86). -/
inductive ArrayAllocResult
  | overflowNull
  | forward (bytes : Nat)
  | undefinedDivByZero
  deriving DecidableEq, Repr

/-- ffcalloc (lines 4646-4670).  The guard `size > (SIZE_MAX / nmemb)` is
evaluated unconditionally, so `nmemb == 0` divides by zero; otherwise the
guard fires exactly when the C comparison does and the call is forwarded to
`ffmalloc(nmemb * size)`. -/
def ffcalloc (nmemb size : Nat) : ArrayAllocResult :=
  if nmemb = 0 then .undefinedDivByZero
  else if size > SIZE_MAX / nmemb then .overflowNull
  else .forward (nmemb * size)

/-- ffreallocarray (lines 4629-4641).  The guard
`nmemb && size > (SIZE_MAX / nmemb)` short-circuits on `nmemb == 0`, so the
division is only evaluated for nonzero nmemb; on success the call is
forwarded to `ffrealloc(ptr, nmemb * size)`. -/
def ffreallocarray (nmemb size : Nat) : ArrayAllocResult :=
  if nmemb ≠ 0 ∧ size > SIZE_MAX / nmemb then .overflowNull
  else .forward (nmemb * size)

/-! ### Pool data model (struct pagepool_t, lines 392-423; struct pagemap_t) -/

/-- Per-page metadata of a small pool.  `allocSize` carries the slot size
with the three low status bits packed in (bit 0 all-freed, bit 1 released,
bit 2 full).  The C tracking bitmap is a single 64-bit word when a page
holds at most 64 slots and an array of words otherwise; both layouts are
embedded as one Nat bitset in which bit `i` is slot `i`. -/
structure pagemap_t where
  start : Nat
  allocSize : Nat
  bitmap : Nat
  deriving DecidableEq, Repr

/-- A pool.  The C field `end` is embedded as `endA` (`end` is reserved in
Lean).  The C `union tracking_t` is embedded as two fields; the C code
discriminates on `nextFreeIndex`: SIZE_MAX = small pool (pageMaps in use),
SIZE_MAX - 1 = jumbo pool (no tracking), otherwise large pool
(allocations in use, `nextFreeIndex` = index of the trailing sentinel,
so the list invariant is `allocations.length = nextFreeIndex + 1`). -/
structure pagepool_t where
  start : Nat
  endA : Nat
  nextFreePage : Nat
  nextFreeIndex : Nat
  pageMaps : List pagemap_t
  allocations : List Nat
  deriving DecidableEq, Repr

/-- Jumbo pool construction, create_jumbopool (lines 1525-1567): the size is
rounded up to PAGE_SIZE, the pool spans exactly that rounded size starting
at the page-aligned address `storage` handed back by the OS, and
`nextFreeIndex` is recycled as the sentinel SIZE_MAX - 1.  The C code
leaves `nextFreePage` unset; it is never read on the jumbo path, and the
embedding pins it to 0. -/
def create_jumbopool (storage size : Nat) : pagepool_t :=
  { start := storage
    endA := storage + ALIGN_TO size PAGE_SIZE
    nextFreePage := 0
    nextFreeIndex := SIZE_MAX - 1
    pageMaps := []
    allocations := [] }

/-! ### Search functions (lines 3532-3600) -/

/-- The page map consulted for `ptr` inside a small pool:
`pool->tracking.pageMaps + (ptr - pool->start) / PAGE_SIZE`.  Page maps of
pages never assigned to a bin are zero-filled (the pool metadata range is
freshly mapped), which the getD default mirrors. -/
def small_page (ptr : Nat) (pool : pagepool_t) : pagemap_t :=
  pool.pageMaps.getD ((ptr - pool.start) / PAGE_SIZE) ⟨0, 0, 0⟩

/-- Result of find_small_ptr.  The C function returns the slot index on
success and a negative code on failure; `misaligned` is the -2 return
(pointer not on a slot boundary), `notAllocated` the -1 / -3 returns
(bitmap bit clear).  `undefinedDivByZero` marks the divisions at lines
3539/3544 executing with `page->allocSize & ~SEVEN64 == 0`, which happens
for a pointer into a page never assigned to a bin and is undefined
behaviour in C. -/
inductive SmallFind
  | found (index : Nat)
  | misaligned
  | notAllocated
  | undefinedDivByZero
  deriving DecidableEq, Repr

/-- find_small_ptr (lines 3532-3563).  The C branch on `allocSize < 64`
selects the word-array bitmap rather than the single word; both sides test
the same flattened bit, which the embedding keeps as one testBit. -/
def find_small_ptr (ptr : Nat) (pool : pagepool_t) : SmallFind :=
  let page := small_page ptr pool
  let slotSize := mask7 page.allocSize
  if slotSize = 0 then .undefinedDivByZero
  else
    let index := (ptr - page.start) / slotSize
    if (ptr - page.start) % slotSize ≠ 0 then .misaligned
    else if page.allocSize < 64 then
      if ¬ page.bitmap.testBit index then .notAllocated else .found index
    else
      if ¬ page.bitmap.testBit index then .notAllocated else .found index

/-- Binary-search loop of find_large_ptr (lines 3571-3596).  `none` stands
for the C return value 0 (allocation not found, or the trailing sentinel
hit); `some (index, size)` copies the metadata index out and returns
`(arr[current+1] & ~SEVEN64) - arr[current]`.  Comparisons are on the raw
stored words, status bits included, exactly as in the C.  The C loop
terminates because `right - left` shrinks every iteration; the embedding
makes that measure an explicit structural fuel, which is faithful whenever
`right - left ≤ fuel`. -/
def flp_go (ptr : Nat) (arr : List Nat) (nfi : Nat) :
    Nat → Nat → Nat → Option (Nat × Nat)
  | 0, _, _ => none
  | fuel + 1, left, right =>
    if left < right then
      if arr.getD (left + (right - left) / 2) 0 = ptr then
        if left + (right - left) / 2 = nfi then none
        else some (left + (right - left) / 2,
          mask7 (arr.getD (left + (right - left) / 2 + 1) 0) -
            arr.getD (left + (right - left) / 2) 0)
      else if ptr < arr.getD (left + (right - left) / 2) 0 then
        flp_go ptr arr nfi fuel left (left + (right - left) / 2)
      else
        flp_go ptr arr nfi fuel (left + (right - left) / 2 + 1) right
    else none

/-- find_large_ptr: search the whole boundary array, `left = 0`,
`right = pool->nextFreeIndex` (which also bounds the iteration count). -/
def find_large_ptr (ptr : Nat) (pool : pagepool_t) : Option (Nat × Nat) :=
  flp_go ptr pool.allocations pool.nextFreeIndex pool.nextFreeIndex 0
    pool.nextFreeIndex

/-! ### fffree / ffrealloc / ffmalloc_usable_size (lines 4480-4950)

The pointer-to-pool resolution performed by the global radix tree
(find_pool_for_ptr) is passed in as the `lookup` argument: `none` when the
registry cannot resolve the pointer, `some pool` otherwise. -/

/-- Observable outcome of fffree (lines 4676-4745).  `aborted` is the
fatal diagnostic path (fprintf + abort); `undefinedDivByZero` propagates
the undefined division inside find_small_ptr. -/
inductive FreeResult
  | noop
  | aborted
  | freedLarge (index size : Nat)
  | freedJumbo
  | freedSmall (index : Nat)
  | undefinedDivByZero
  deriving DecidableEq, Repr

/-- fffree (lines 4676-4745).  The C tests the size returned by
find_large_ptr against 0 to detect a miss, so a found entry whose computed
size is 0 also aborts. -/
def fffree (ptr : Nat) (lookup : Option pagepool_t) : FreeResult :=
  if ptr = 0 then .noop
  else
    match lookup with
    | none => .aborted
    | some pool =>
      if pool.nextFreeIndex < SIZE_MAX - 1 then
        match find_large_ptr ptr pool with
        | none => .aborted
        | some (index, size) =>
          if size = 0 then .aborted else .freedLarge index size
      else if pool.nextFreeIndex = SIZE_MAX - 1 then .freedJumbo
      else
        match find_small_ptr ptr pool with
        | .found index => .freedSmall index
        | .undefinedDivByZero => .undefinedDivByZero
        | _ => .aborted

/-- Observable outcome of ffrealloc (lines 4480-4625).  `samePtr addr`
means the function returns `addr` with the allocation left in place;
`moved*` outcomes are the malloc-copy-free paths with the old and the
aligned new size recorded. -/
inductive ReallocResult
  | forwardMalloc (size : Nat)
  | freeThenNull
  | samePtr (addr : Nat)
  | movedLarge (index oldSize newSize : Nat)
  | movedJumbo (oldSize newSize : Nat)
  | movedSmall (index oldSize newSize : Nat)
  | aborted
  | undefinedDivByZero
  deriving DecidableEq, Repr

/-- ffrealloc (lines 4480-4625), with FF_GROWLARGEREALLOC compiled out as
in the default build. -/
def ffrealloc (ptr size : Nat) (lookup : Option pagepool_t) : ReallocResult :=
  if ptr = 0 then .forwardMalloc size
  else if size = 0 then .freeThenNull
  else
    let size := ALIGN_SIZE size
    match lookup with
    | none => .aborted
    | some pool =>
      if pool.nextFreeIndex < SIZE_MAX - 1 then
        match find_large_ptr ptr pool with
        | none => .aborted
        | some (index, oldSize) =>
          if oldSize = 0 then .aborted
          else if size ≤ oldSize then .samePtr ptr
          else .movedLarge index oldSize size
      else if pool.nextFreeIndex = SIZE_MAX - 1 then
        let jumboSize := pool.endA - pool.start
        if size ≤ jumboSize then .samePtr pool.start
        else .movedJumbo jumboSize size
      else
        match find_small_ptr ptr pool with
        | .found index =>
          let slotSize := mask7 (small_page ptr pool).allocSize
          if size ≤ slotSize then .samePtr ptr
          else .movedSmall index slotSize size
        | .undefinedDivByZero => .undefinedDivByZero
        | _ => .aborted

/-- ffmalloc_usable_size (lines 4910-4950).  `none` marks the undefined
division reached through find_small_ptr for a pointer into a small-pool
page never assigned to a bin; every defined path returns the C value. -/
def ffmalloc_usable_size (ptr : Nat) (lookup : Option pagepool_t) :
    Option Nat :=
  if ptr = 0 then some 0
  else
    match lookup with
    | none => some 0
    | some pool =>
      if pool.nextFreeIndex < SIZE_MAX - 1 then
        match find_large_ptr ptr pool with
        | none => some 0
        | some (_, size) => some size
      else if pool.nextFreeIndex = SIZE_MAX - 1 then
        some (pool.endA - pool.start)
      else
        match find_small_ptr ptr pool with
        | .found _ => some (mask7 (small_page ptr pool).allocSize)
        | .undefinedDivByZero => none
        | _ => some 0

/-! ### Large-pool boundary-array operations (lines 3816-3889, 4252-4398) -/

/-- ffmalloc_large_from_pool (lines 3816-3859).  Returns the allocation
address and the updated pool.  The boundary-array write
`allocations[++nextFreeIndex] = nextFreePage` appends one entry (the list
invariant is `allocations.length = nextFreeIndex + 1`); when alignment
exceeds MIN_ALIGNMENT the previous trailing entry is first rewritten to the
aligned address (the "extend the previous allocation" case); when less than
HALF_PAGE + MIN_ALIGNMENT of tail slack would remain, the new trailing
entry and nextFreePage are bumped to the pool end. -/
def ffmalloc_large_from_pool (size alignment : Nat) (pool : pagepool_t) :
    Nat × pagepool_t :=
  let alignedNext := ALIGN_TO pool.nextFreePage alignment
  let nfp1 := alignedNext + size
  let arr1 := if MIN_ALIGNMENT < alignment then
                pool.allocations.set pool.nextFreeIndex alignedNext
              else pool.allocations
  let arr2 := arr1 ++ [nfp1]
  let nfi := pool.nextFreeIndex + 1
  if pool.endA - nfp1 < HALF_PAGE + MIN_ALIGNMENT then
    (alignedNext, { pool with allocations := arr2.set nfi pool.endA
                              nextFreePage := pool.endA
                              nextFreeIndex := nfi })
  else
    (alignedNext, { pool with allocations := arr2
                              nextFreePage := nfp1
                              nextFreeIndex := nfi })

/-- The metadata write at line 4260 of free_large_pointer: mark the freed
entry, `allocations[index] |= ONE64`. -/
def free_large_mark (pool : pagepool_t) (index : Nat) : pagepool_t :=
  { pool with allocations :=
      pool.allocations.set index (pool.allocations.getD index 0 ||| 1) }

/-- Helper for the unmap marking loop: or the given constant into every
entry whose index lies in `[first, last]`, counting from `i`. -/
def orRangeGo (bits first last : Nat) : Nat → List Nat → List Nat
  | _, [] => []
  | i, a :: rest =>
    (if first ≤ i ∧ i ≤ last then a ||| bits else a) ::
      orRangeGo bits first last (i + 1) rest

/-- The metadata writes at lines 4392-4394 of free_large_pointer: after a
successful decommit, `allocations[i] |= THREE64` for every
`i ∈ [firstFreeIndex, lastFreeIndex]`. -/
def mark_unmapped_range (pool : pagepool_t) (first last : Nat) :
    pagepool_t :=
  { pool with allocations := orRangeGo 3 first last 0 pool.allocations }

/-- trim_large_pool (lines 3865-3889), metadata effect: if slack remains
past the trailing entry, record it as one allocation reaching the pool end
and mark it freed (the free_large_pointer call at line 3879 contributes
the `|= ONE64` at line 4260; its unmap marking is `mark_unmapped_range`,
covered separately); finally tag the trailing entry with FOUR64 (pool no
longer allocated from). -/
def trim_large_pool (pool : pagepool_t) : pagepool_t :=
  let pool1 :=
    if pool.allocations.getD pool.nextFreeIndex 0 < pool.endA then
      let pool' := { pool with
        nextFreeIndex := pool.nextFreeIndex + 1
        allocations := pool.allocations ++ [pool.endA]
        nextFreePage := pool.endA }
      free_large_mark pool' (pool'.nextFreeIndex - 1)
    else pool
  { pool1 with allocations :=
      (pool1.allocations.set pool1.nextFreeIndex
        (pool1.allocations.getD pool1.nextFreeIndex 0 ||| 4)) }

/-- Sortedness invariant of a large-pool boundary array (spec: sorted
large metadata): the entries, status bits masked off, are strictly
increasing over indices `0..nextFreeIndex`. -/
def SortedMasked (arr : List Nat) : Prop :=
  ∀ i j, i < j → j < arr.length → mask7 (arr.getD i 0) < mask7 (arr.getD j 0)

/-- Reachable-state invariant of an active large pool: the boundary array
holds `nextFreeIndex + 1` entries, they are strictly sorted modulo status
masking, the masked trailing sentinel equals `nextFreePage`, which never
passes the pool end, and bump pointer and pool end are 8-byte aligned (all
ingredients the code establishes at pool creation, lines 1483-1522). -/
def LargeInv (pool : pagepool_t) : Prop :=
  pool.allocations.length = pool.nextFreeIndex + 1 ∧
  SortedMasked pool.allocations ∧
  mask7 (pool.allocations.getD pool.nextFreeIndex 0) = pool.nextFreePage ∧
  pool.nextFreePage ≤ pool.endA ∧
  8 ∣ pool.nextFreePage ∧ 8 ∣ pool.endA

/-! ### OS memory adapter (os_alloc_highwater, lines 807-851) -/

/-- Outcome of one mmap attempt inside os_alloc_highwater. -/
inductive MmapResult
  | ok
  | eexist
  | fail
  deriving DecidableEq, Repr

/-- Retry loop of os_alloc_highwater: `localHigh` is the address obtained
from the last fetch-and-add, `hw` the current poolHighWater.  On EEXIST the
highwater is advanced by a further POOL_SIZE and the mapping retried; any
other mmap failure propagates as out-of-memory.  The C loop retries until
mmap stops failing; the embedding drives it by the finite list of mmap
outcomes and ends the trace when the list is exhausted. -/
def os_alloc_highwater_go (localHigh hw : Nat) :
    List MmapResult → Option Nat × Nat
  | [] => (none, hw)
  | .ok :: _ => (some localHigh, hw)
  | .eexist :: rest => os_alloc_highwater_go hw (hw + POOL_SIZE) rest
  | .fail :: _ => (none, hw)

/-- os_alloc_highwater (lines 807-851), advancing path (the MARK_SWEEP
address-reuse queue is compiled out): atomically fetch-and-add
poolHighWater by `size`, then run the mapping retry loop.  Returns the
mapped address (or none for out-of-memory) and the new poolHighWater. -/
def os_alloc_highwater (size : Nat) (oracle : List MmapResult) (hw : Nat) :
    Option Nat × Nat :=
  os_alloc_highwater_go hw (hw + size) oracle

/-! ### Size-class dispatch of the public entry points (lines 4413-4906) -/

/-- Which allocator a request is routed to, with the size (and alignment)
argument actually passed down. -/
inductive AllocPath
  | small (size : Nat)
  | large (size alignment : Nat)
  | jumbo (size : Nat)
  deriving DecidableEq, Repr

/-- ffmalloc (lines 4413-4474) up to the dispatch: a zero size is rewritten
to 8; a size that would make ALIGN_SIZE wrap fails with ENOMEM (`none`);
then aligned size ≤ HALF_PAGE goes small, aligned size
< POOL_SIZE - HALF_PAGE goes large, the rest jumbo. -/
def ffmalloc_dispatch (size : Nat) : Option AllocPath :=
  let size1 := if size = 0 then 8 else size
  if size1 > SIZE_MAX - MIN_ALIGNMENT then none
  else
    let size2 := ALIGN_SIZE size1
    if size2 ≤ HALF_PAGE then some (.small size2)
    else if size2 < POOL_SIZE - HALF_PAGE then
      some (.large size2 MIN_ALIGNMENT)
    else some (.jumbo size2)

/-- Bit-scanning helper over at most `fuel` bits (the C operands are
64-bit words, so 64 bits of fuel are always enough). -/
def popCountGo : Nat → Nat → Nat
  | 0, _ => 0
  | fuel + 1, n => if n = 0 then 0 else n % 2 + popCountGo fuel (n / 2)

/-- Population count of a 64-bit word, C FFPOPCOUNT64
(`__builtin_popcountl`). -/
def FFPOPCOUNT64 (n : Nat) : Nat := popCountGo 64 n

/-- Number of bits of a 64-bit word, i.e. `64 - FFCOUNTLEADINGZEROS64 n`
(`__builtin_clzl`). -/
def bitLenGo : Nat → Nat → Nat
  | 0, _ => 0
  | fuel + 1, n => if n = 0 then 0 else bitLenGo fuel (n / 2) + 1

/-- C `64 - FFCOUNTLEADINGZEROS64 n` for a nonzero 64-bit word n. -/
def FFBITLEN (n : Nat) : Nat := bitLenGo 64 n

/-- C `ONE64 << (64 - FFCOUNTLEADINGZEROS64(size - 1))`: the least power of
two that is ≥ size, for 2 ≤ size ≤ 2^63 (the C expression is undefined at
size = 1, where it would take clz of 0; no caller passes 1 on this
branch). -/
def nextPow2 (size : Nat) : Nat := 2 ^ FFBITLEN (size - 1)

/-- ffmemalign_internal (lines 4747-4784): small-bin service when both size
and alignment fit under HALF_PAGE (requesting `alignment` bytes when size
fits inside it, else the next power of two of size); otherwise the aligned
size is compared against POOL_SIZE to pick jumbo or large. -/
def ffmemalign_internal (alignment size : Nat) : AllocPath :=
  if size ≤ HALF_PAGE ∧ alignment ≤ HALF_PAGE then
    if size ≤ alignment then .small alignment
    else .small (nextPow2 size)
  else
    let size1 := ALIGN_SIZE size
    if size1 ≥ POOL_SIZE then .jumbo size1
    else .large size1 alignment

/-- Observable outcome of the aligned-allocation wrappers before an
allocator is entered.  `nullPlain` is a bare NULL return with errno left
alone; `einval` is the EINVAL rejection (errno or status code);
`forwardMalloc` is the plain ffmalloc fallback of ffmemalign for small
alignments. -/
inductive MemalignResult
  | nullPlain
  | einval
  | forwardMalloc (size : Nat)
  | dispatch (p : AllocPath)
  deriving DecidableEq, Repr

/-- ffposix_memalign (lines 4789-4818). -/
def ffposix_memalign (alignment size : Nat) : MemalignResult :=
  if size = 0 ∨ size ≥ SIZE_MAX - PAGE_SIZE then .einval
  else if alignment < 8 ∨ FFPOPCOUNT64 alignment ≠ 1 then .einval
  else if size + PAGE_SIZE ≥ POOL_SIZE ∧ alignment > PAGE_SIZE then .einval
  else .dispatch (ffmemalign_internal alignment size)

/-- ffmemalign (lines 4823-4853).  Alignments that are powers of two but
no larger than sizeof(void*) are explicitly allowed and served by plain
ffmalloc. -/
def ffmemalign (alignment size : Nat) : MemalignResult :=
  if size = 0 ∨ size ≥ SIZE_MAX - PAGE_SIZE then .nullPlain
  else if FFPOPCOUNT64 alignment ≠ 1 then .einval
  else if alignment ≤ 8 then .forwardMalloc size
  else if size + PAGE_SIZE ≥ POOL_SIZE ∧ alignment > PAGE_SIZE then .einval
  else .dispatch (ffmemalign_internal alignment size)

/-- ffaligned_alloc (lines 4858-4906). -/
def ffaligned_alloc (alignment size : Nat) : MemalignResult :=
  if size = 0 ∨ size ≥ SIZE_MAX - PAGE_SIZE then .nullPlain
  else if alignment < 8 ∨ FFPOPCOUNT64 alignment ≠ 1 then .einval
  else if size < alignment ∨ size % alignment ≠ 0 then .einval
  else if size + PAGE_SIZE ≥ POOL_SIZE ∧ alignment > PAGE_SIZE then .einval
  else if size ≥ POOL_SIZE then .dispatch (.jumbo size)
  else if size ≤ HALF_PAGE ∧ alignment ≤ HALF_PAGE then
    .dispatch (.small (nextPow2 size))
  else .dispatch (.large size alignment)

/-! ### Small-allocation placement (ffmalloc_small, lines 3707-3811)

A small allocation of bin `b` is handed out at
`bin->page->start + allocCount * allocSize`; page starts are
`pool->start + pageIndex * PAGE_SIZE` (assign_pages_to_tcache, line 1366),
and pool starts come from mmap, hence are PAGE_SIZE aligned. -/

/-- Address of the `slot`-th allocation on the `pageIdx`-th page of a small
pool, for a bin of the given slot size. -/
def small_alloc_addr (poolStart pageIdx slot allocSize : Nat) : Nat :=
  poolStart + pageIdx * PAGE_SIZE + slot * allocSize

/-! ## Helper lemmas on the masking and alignment primitives -/

theorem mask7_le (n : Nat) : mask7 n ≤ n := Nat.sub_le _ _

theorem mask7_eq_mul (n : Nat) : mask7 n = 8 * (n / 8) := by
  unfold mask7; omega

theorem mask7_of_dvd {n : Nat} (h : 8 ∣ n) : mask7 n = n := by
  unfold mask7; omega

theorem raw_lt_of_mask7_lt {a b : Nat} (h : mask7 a < mask7 b) : a < b := by
  unfold mask7 at h; omega

theorem lor_small_div8 (n m : Nat) (hm : m < 8) : (n ||| m) / 8 = n / 8 := by
  have h3 : ∀ x : Nat, x / 8 = x >>> 3 := by
    intro x
    rw [Nat.shiftRight_eq_div_pow]
  rw [h3, h3]
  apply Nat.eq_of_testBit_eq
  intro i
  rw [Nat.testBit_shiftRight, Nat.testBit_shiftRight, Nat.testBit_lor]
  have hmf : m.testBit (3 + i) = false := by
    apply Nat.testBit_lt_two_pow
    calc m < 8 := hm
    _ ≤ 2 ^ (3 + i) := by
      have : (8 : Nat) = 2 ^ 3 := rfl
      rw [this]
      exact Nat.pow_le_pow_right (by omega) (by omega)
  rw [hmf, Bool.or_false]

theorem mask7_lor_small (n m : Nat) (hm : m < 8) :
    mask7 (n ||| m) = mask7 n := by
  rw [mask7_eq_mul, mask7_eq_mul, lor_small_div8 n m hm]

theorem ALIGN_TO_le (v a : Nat) (ha : 0 < a) : v ≤ ALIGN_TO v a := by
  have h1 : (v + (a - 1)) % a < a := Nat.mod_lt _ ha
  unfold ALIGN_TO
  omega

theorem ALIGN_TO_lt (v a : Nat) (_ha : 0 < a) : ALIGN_TO v a < v + a := by
  unfold ALIGN_TO
  omega

theorem ALIGN_TO_dvd (v a : Nat) (ha : 0 < a) : a ∣ ALIGN_TO v a := by
  have h2 := Nat.mod_add_div (v + (a - 1)) a
  exact ⟨(v + (a - 1)) / a, by unfold ALIGN_TO; omega⟩

theorem ALIGN_SIZE_ge (s : Nat) : s ≤ ALIGN_SIZE s := by
  unfold ALIGN_SIZE
  split <;> omega

theorem ALIGN_SIZE_pos (s : Nat) : 0 < ALIGN_SIZE s := by
  unfold ALIGN_SIZE
  split <;> omega

theorem ALIGN_SIZE_dvd8 (s : Nat) : 8 ∣ ALIGN_SIZE s := by
  unfold ALIGN_SIZE
  split <;> omega

theorem ALIGN_SIZE_lt (s : Nat) : ALIGN_SIZE s < s + 16 := by
  unfold ALIGN_SIZE
  split <;> omega

theorem ALIGN_SIZE_of_dvd16 {s : Nat} (h16 : 16 ∣ s) (h0 : 0 < s) :
    ALIGN_SIZE s = s := by
  unfold ALIGN_SIZE
  split <;> omega

/-! ## C10: totality of the ffcalloc overflow guard -/

/-- C10 (code_bug): ffcalloc is not total: at `nmemb = 0` its guard
evaluates `SIZE_MAX / nmemb`, a division by zero, which is undefined
behaviour in C (SIGFPE on x86), while ffreallocarray short-circuits on
`nmemb` first and is well-defined on the same input, forwarding a
zero-byte request. -/
theorem ffcalloc_nmemb_zero_div :
    ffcalloc 0 1 = .undefinedDivByZero ∧ ffreallocarray 0 1 = .forward 0 := by
  constructor <;> rfl

/-! ## C3: the calloc overflow check -/

/-- C3 (corrected), counterexample: at `nmemb = size = 2^30` the product
is 2^60, which does not overflow a 64-bit size_t, so the guard does not
fire; the call is forwarded to ffmalloc(2^60) instead of returning NULL
with an overflow indication. -/
theorem ffcalloc_pow30_no_overflow_cex :
    ffcalloc (2 ^ 30) (2 ^ 30) = .forward (2 ^ 60) ∧
    2 ^ 30 * 2 ^ 30 ≤ SIZE_MAX ∧
    ffcalloc (2 ^ 30) (2 ^ 30) ≠ .overflowNull := by
  refine ⟨by decide, by decide, by decide⟩

/-- C3 (corrected): for nonzero nmemb, ffcalloc returns NULL (before any
allocator state is touched: the guard precedes even lazy initialization)
exactly when `nmemb * size` overflows SIZE_MAX, and otherwise forwards
`nmemb * size` bytes to ffmalloc.  The concrete input named by the spec,
`(2^30, 2^30)`, falls on the non-overflowing side. -/
theorem ffcalloc_overflow_check (nmemb size : Nat) (h : 0 < nmemb) :
    (ffcalloc nmemb size = .overflowNull ↔ SIZE_MAX < nmemb * size) ∧
    (nmemb * size ≤ SIZE_MAX →
      ffcalloc nmemb size = .forward (nmemb * size)) := by
  have hdiv : SIZE_MAX / nmemb < size ↔ SIZE_MAX < nmemb * size := by
    rw [Nat.div_lt_iff_lt_mul h, Nat.mul_comm]
  unfold ffcalloc
  rw [if_neg (by omega)]
  refine ⟨⟨?_, ?_⟩, ?_⟩
  · intro hov
    by_cases hc : SIZE_MAX / nmemb < size
    · exact hdiv.mp hc
    · rw [if_neg hc] at hov
      simp at hov
  · intro hov
    rw [if_pos (hdiv.mpr hov)]
  · intro hle
    rw [if_neg ((not_congr hdiv).mpr (by omega))]

/-- C3 witness: at `(2^32, 2^32)` the hypothesis holds and the product
truly overflows, so the guard fires. -/
theorem ffcalloc_overflow_check_witness :
    0 < 2 ^ 32 ∧
    ((ffcalloc (2 ^ 32) (2 ^ 32) = .overflowNull ↔
        SIZE_MAX < 2 ^ 32 * 2 ^ 32) ∧
      (2 ^ 32 * 2 ^ 32 ≤ SIZE_MAX →
        ffcalloc (2 ^ 32) (2 ^ 32) = .forward (2 ^ 32 * 2 ^ 32))) :=
  ⟨by decide, ffcalloc_overflow_check (2 ^ 32) (2 ^ 32) (by decide)⟩

/-! ## C8: the zero-size request -/

/-- C8 (corrected), counterexample: ffmalloc(0) requests 8 bytes, lands in
bin 0 of the default (16-byte-alignment) build, and the usable size of
that bin is 8, not MIN_ALIGNMENT = 16. -/
theorem ffmalloc_zero_size_cex :
    ffmalloc_dispatch 0 = some (.small 8) ∧
    binAllocSize (GET_BIN 8) = 8 ∧
    binAllocSize (GET_BIN 8) ≠ MIN_ALIGNMENT := by
  refine ⟨by decide, by decide, by decide⟩

/-- C8 (amended): a zero-byte request is rewritten to an 8-byte request,
is dispatched to the small allocator (so it does not return NULL absent
out-of-memory), and the serving bin's slot size is 8 in both builds: bin 0
of the default 16-byte build and the last stride bin of the
FF_EIGHTBYTEALIGN build (where 8 does coincide with MIN_ALIGNMENT). -/
theorem ffmalloc_zero_request :
    ffmalloc_dispatch 0 = some (.small (ALIGN_SIZE 8)) ∧
    ALIGN_SIZE 8 = 8 ∧
    binAllocSize (GET_BIN (ALIGN_SIZE 8)) = 8 ∧
    binAllocSize8 (GET_BIN8 (ALIGN_SIZE8 8)) = 8 ∧
    MIN_ALIGNMENT8 = 8 := by
  refine ⟨by decide, by decide, by decide, by decide, by decide⟩

/-! ## C1: the jumbo dispatch threshold -/

/-- Evaluation of the ffmalloc dispatch for a nonzero, non-wrapping
size. -/
theorem ffmalloc_dispatch_eq (s : Nat) (hs : 0 < s)
    (hmax : s ≤ SIZE_MAX - MIN_ALIGNMENT) :
    ffmalloc_dispatch s =
      (if ALIGN_SIZE s ≤ HALF_PAGE then some (.small (ALIGN_SIZE s))
       else if ALIGN_SIZE s < POOL_SIZE - HALF_PAGE then
         some (.large (ALIGN_SIZE s) MIN_ALIGNMENT)
       else some (.jumbo (ALIGN_SIZE s))) := by
  simp only [ffmalloc_dispatch]
  rw [if_neg (show ¬ s = 0 by omega)]
  rw [if_neg (show ¬ s > SIZE_MAX - MIN_ALIGNMENT by omega)]

/-- C1 (corrected), counterexample: at size POOL_SIZE - HALF_PAGE (already
16-byte aligned) the claim requires the jumbo allocator for every entry
point, but ffmemalign_internal and ffaligned_alloc route it to the large
allocator; only ffmalloc treats it as jumbo. -/
theorem memalign_jumbo_threshold_cex :
    ALIGN_SIZE (POOL_SIZE - HALF_PAGE) = POOL_SIZE - HALF_PAGE ∧
    ffmemalign_internal 16 (POOL_SIZE - HALF_PAGE) =
      .large (POOL_SIZE - HALF_PAGE) 16 ∧
    ffaligned_alloc 16 (POOL_SIZE - HALF_PAGE) =
      .dispatch (.large (POOL_SIZE - HALF_PAGE) 16) ∧
    ffmalloc_dispatch (POOL_SIZE - HALF_PAGE) =
      some (.jumbo (POOL_SIZE - HALF_PAGE)) := by
  refine ⟨by decide, by decide, by decide, by decide⟩

/-- C1 (amended): ffmalloc dispatches to the jumbo allocator exactly when
the aligned size reaches POOL_SIZE - HALF_PAGE and to the large allocator
exactly when the aligned size lies strictly between HALF_PAGE and
POOL_SIZE - HALF_PAGE; the aligned entry points ffmemalign_internal and
ffaligned_alloc instead use the threshold POOL_SIZE for their jumbo
routing.  A jumbo allocation always owns its own pool whose size is the
request rounded up to PAGE_SIZE and whose nextFreeIndex sentinel is
SIZE_MAX - 1. -/
theorem jumbo_dispatch_threshold (s a storage : Nat) (hs : 0 < s)
    (hmax : s ≤ SIZE_MAX - MIN_ALIGNMENT) :
    (ffmalloc_dispatch s = some (.jumbo (ALIGN_SIZE s)) ↔
      POOL_SIZE - HALF_PAGE ≤ ALIGN_SIZE s) ∧
    (ffmalloc_dispatch s = some (.large (ALIGN_SIZE s) MIN_ALIGNMENT) ↔
      HALF_PAGE < ALIGN_SIZE s ∧ ALIGN_SIZE s < POOL_SIZE - HALF_PAGE) ∧
    (¬ (s ≤ HALF_PAGE ∧ a ≤ HALF_PAGE) →
      (ffmemalign_internal a s = .jumbo (ALIGN_SIZE s) ↔
        POOL_SIZE ≤ ALIGN_SIZE s)) ∧
    (create_jumbopool storage s).nextFreeIndex = SIZE_MAX - 1 ∧
    (create_jumbopool storage s).endA - storage = ALIGN_TO s PAGE_SIZE ∧
    s ≤ ALIGN_TO s PAGE_SIZE ∧
    ALIGN_TO s PAGE_SIZE < s + PAGE_SIZE ∧
    PAGE_SIZE ∣ ALIGN_TO s PAGE_SIZE := by
  have hc1 : HALF_PAGE < POOL_SIZE - HALF_PAGE := by decide
  have hpg : 0 < PAGE_SIZE := by decide
  refine ⟨?_, ?_, ?_, rfl, ?_, ALIGN_TO_le s PAGE_SIZE hpg,
    ALIGN_TO_lt s PAGE_SIZE hpg, ALIGN_TO_dvd s PAGE_SIZE hpg⟩
  · rw [ffmalloc_dispatch_eq s hs hmax]
    split_ifs with h1 h2
    · simp only [Option.some_inj]
      constructor
      · intro hcontra
        exact absurd hcontra (by simp)
      · omega
    · simp only [Option.some_inj]
      constructor
      · intro hcontra
        exact absurd hcontra (by simp)
      · omega
    · simp only [Option.some_inj, true_iff]
      omega
  · rw [ffmalloc_dispatch_eq s hs hmax]
    split_ifs with h1 h2
    · simp only [Option.some_inj]
      constructor
      · intro hcontra
        exact absurd hcontra (by simp)
      · omega
    · simp only [Option.some_inj, true_iff]
      omega
    · simp only [Option.some_inj]
      constructor
      · intro hcontra
        exact absurd hcontra (by simp)
      · omega
  · intro hno
    simp only [ffmemalign_internal, if_neg hno]
    split_ifs with h1
    · simp only [true_iff]
      omega
    · constructor
      · intro hcontra
        exact absurd hcontra (by simp)
      · omega
  · simp only [create_jumbopool]
    omega

/-- C1 witness: at size POOL_SIZE the hypotheses hold and ffmalloc routes
to the jumbo allocator. -/
theorem jumbo_dispatch_threshold_witness :
    0 < POOL_SIZE ∧ POOL_SIZE ≤ SIZE_MAX - MIN_ALIGNMENT ∧
    ((ffmalloc_dispatch POOL_SIZE = some (.jumbo (ALIGN_SIZE POOL_SIZE)) ↔
        POOL_SIZE - HALF_PAGE ≤ ALIGN_SIZE POOL_SIZE) ∧
      (ffmalloc_dispatch POOL_SIZE =
          some (.large (ALIGN_SIZE POOL_SIZE) MIN_ALIGNMENT) ↔
        HALF_PAGE < ALIGN_SIZE POOL_SIZE ∧
          ALIGN_SIZE POOL_SIZE < POOL_SIZE - HALF_PAGE) ∧
      (¬ (POOL_SIZE ≤ HALF_PAGE ∧ 16 ≤ HALF_PAGE) →
        (ffmemalign_internal 16 POOL_SIZE =
            .jumbo (ALIGN_SIZE POOL_SIZE) ↔
          POOL_SIZE ≤ ALIGN_SIZE POOL_SIZE)) ∧
      (create_jumbopool 0 POOL_SIZE).nextFreeIndex = SIZE_MAX - 1 ∧
      (create_jumbopool 0 POOL_SIZE).endA - 0 = ALIGN_TO POOL_SIZE PAGE_SIZE ∧
      POOL_SIZE ≤ ALIGN_TO POOL_SIZE PAGE_SIZE ∧
      ALIGN_TO POOL_SIZE PAGE_SIZE < POOL_SIZE + PAGE_SIZE ∧
      PAGE_SIZE ∣ ALIGN_TO POOL_SIZE PAGE_SIZE) :=
  ⟨by decide, by decide,
    jumbo_dispatch_threshold POOL_SIZE 16 0 (by decide) (by decide)⟩

/-! ## C2: highwater monotonicity -/

theorem hw_go_snd_ge (oracle : List MmapResult) :
    ∀ localHigh hw, hw ≤ (os_alloc_highwater_go localHigh hw oracle).2 := by
  induction oracle with
  | nil => intro lh hw; exact Nat.le_refl _
  | cons head rest ih =>
    intro lh hw
    cases head with
    | ok => exact Nat.le_refl _
    | eexist =>
      exact Nat.le_trans (Nat.le_add_right hw POOL_SIZE)
        (ih hw (hw + POOL_SIZE))
    | fail => exact Nat.le_refl _

theorem hw_go_some_ge (oracle : List MmapResult) :
    ∀ c localHigh hw a, c ≤ localHigh → c ≤ hw →
      (os_alloc_highwater_go localHigh hw oracle).1 = some a → c ≤ a := by
  induction oracle with
  | nil => intro c lh hw a _ _ h; simp [os_alloc_highwater_go] at h
  | cons head rest ih =>
    intro c lh hw a hlh hhw h
    cases head with
    | ok =>
      simp [os_alloc_highwater_go] at h
      omega
    | eexist => exact ih c hw (hw + POOL_SIZE) a hhw (by omega) h
    | fail => simp [os_alloc_highwater_go] at h

theorem hw_go_some_lt (oracle : List MmapResult) :
    ∀ localHigh hw a, localHigh < hw →
      (os_alloc_highwater_go localHigh hw oracle).1 = some a →
      a < (os_alloc_highwater_go localHigh hw oracle).2 := by
  induction oracle with
  | nil => intro lh hw a _ h; simp [os_alloc_highwater_go] at h
  | cons head rest ih =>
    intro lh hw a hlt h
    cases head with
    | ok =>
      simp [os_alloc_highwater_go] at h ⊢
      omega
    | eexist =>
      simp only [os_alloc_highwater_go] at h ⊢
      have hp : (0:Nat) < POOL_SIZE := by decide
      exact ih hw (hw + POOL_SIZE) a (by omega) h
    | fail => simp [os_alloc_highwater_go] at h

/-- C2 (confirmed): on the advancing path every os_alloc_highwater call
moves poolHighWater up by at least its positive size (the EEXIST retry
adds POOL_SIZE more each round, also positive), no path decreases it, and
the addresses handed out are ordered: a call returns an address between
the highwater it started from and the highwater it leaves behind, so a
later mapping starts no lower than (in fact strictly above) an earlier
one's reservation point. -/
theorem poolHighWater_monotone (size1 size2 hw0 a1 a2 : Nat)
    (o1 o2 : List MmapResult) (h1 : 0 < size1) (h2 : 0 < size2)
    (ha1 : (os_alloc_highwater size1 o1 hw0).1 = some a1)
    (ha2 : (os_alloc_highwater size2 o2
        (os_alloc_highwater size1 o1 hw0).2).1 = some a2) :
    hw0 + size1 ≤ (os_alloc_highwater size1 o1 hw0).2 ∧
    hw0 ≤ a1 ∧ a1 < (os_alloc_highwater size1 o1 hw0).2 ∧ a1 < a2 := by
  unfold os_alloc_highwater at ha1 ha2 ⊢
  have m1 := hw_go_snd_ge o1 hw0 (hw0 + size1)
  have g1 := hw_go_some_ge o1 hw0 hw0 (hw0 + size1) a1 (Nat.le_refl _)
    (by omega) ha1
  have l1 := hw_go_some_lt o1 hw0 (hw0 + size1) a1 (by omega) ha1
  have g2 := hw_go_some_ge o2 (os_alloc_highwater_go hw0 (hw0 + size1) o1).2
    (os_alloc_highwater_go hw0 (hw0 + size1) o1).2
    ((os_alloc_highwater_go hw0 (hw0 + size1) o1).2 + size2) a2
    (Nat.le_refl _) (by omega) ha2
  exact ⟨m1, g1, l1, Nat.lt_of_lt_of_le l1 g2⟩

/-- C2 witness: a first reservation at highwater 0 returns address 0 and
leaves the highwater at POOL_SIZE; a second reservation that collides once
returns 2 * POOL_SIZE, above the first. -/
theorem poolHighWater_monotone_witness :
    (os_alloc_highwater POOL_SIZE [.ok] 0).1 = some 0 ∧
    (os_alloc_highwater POOL_SIZE [.eexist, .ok]
        (os_alloc_highwater POOL_SIZE [.ok] 0).2).1 = some (2 * POOL_SIZE) ∧
    (0 + POOL_SIZE ≤ (os_alloc_highwater POOL_SIZE [.ok] 0).2 ∧
      0 ≤ 0 ∧ 0 < (os_alloc_highwater POOL_SIZE [.ok] 0).2 ∧
      0 < 2 * POOL_SIZE) :=
  ⟨by decide, by decide,
    poolHighWater_monotone POOL_SIZE POOL_SIZE 0 0 (2 * POOL_SIZE)
      [.ok] [.eexist, .ok] (by decide) (by decide) (by decide) (by decide)⟩

/-! ## Binary search over the large-pool boundary array -/

theorem flp_go_miss (ptr : Nat) (arr : List Nat) (nfi : Nat) :
    ∀ fuel left right,
      (∀ i, left ≤ i → i < right → arr.getD i 0 ≠ ptr) →
      flp_go ptr arr nfi fuel left right = none := by
  intro fuel
  induction fuel with
  | zero => intro l r _; rfl
  | succ fuel ih =>
    intro l r hmiss
    simp only [flp_go]
    by_cases hlr : l < r
    · rw [if_pos hlr]
      have hcur2 : l + (r - l) / 2 < r := by omega
      rw [if_neg (hmiss _ (Nat.le_add_right _ _) hcur2)]
      by_cases hlt : ptr < arr.getD (l + (r - l) / 2) 0
      · rw [if_pos hlt]
        exact ih l (l + (r - l) / 2) fun i hi1 hi2 => hmiss i hi1 (by omega)
      · rw [if_neg hlt]
        exact ih (l + (r - l) / 2 + 1) r fun i hi1 hi2 => hmiss i (by omega) hi2
    · rw [if_neg hlr]

theorem flp_go_hit (ptr : Nat) (arr : List Nat) (nfi k : Nat)
    (hsorted : ∀ i j, i < j → j < arr.length → arr.getD i 0 < arr.getD j 0)
    (hlen : nfi < arr.length) (hkp : arr.getD k 0 = ptr) (hk : k < nfi) :
    ∀ fuel left right, right - left ≤ fuel → left ≤ k → k < right →
      right ≤ nfi →
      flp_go ptr arr nfi fuel left right =
        some (k, mask7 (arr.getD (k + 1) 0) - ptr) := by
  intro fuel
  induction fuel with
  | zero => intro l r hf hlk hkr hrn; omega
  | succ fuel ih =>
    intro l r hf hlk hkr hrn
    have hlr : l < r := by omega
    simp only [flp_go]
    rw [if_pos hlr]
    set c := l + (r - l) / 2 with hc
    have hcr : c < r := by omega
    have hcn : c < nfi := by omega
    have hcl : c < arr.length := by omega
    by_cases he : arr.getD c 0 = ptr
    · have hck : c = k := by
        rcases Nat.lt_trichotomy c k with h | h | h
        · exfalso
          have hlt := hsorted c k h (by omega)
          rw [he, hkp] at hlt
          omega
        · exact h
        · exfalso
          have hlt := hsorted k c h hcl
          rw [he, hkp] at hlt
          omega
      rw [if_pos he, if_neg (by omega : ¬ c = nfi), hck, hkp]
    · rw [if_neg he]
      by_cases hlt : ptr < arr.getD c 0
      · rw [if_pos hlt]
        have hkc : k < c := by
          rcases Nat.lt_trichotomy k c with h | h | h
          · exact h
          · exact absurd (h ▸ hkp) he
          · exfalso
            have hscn := hsorted c k h (by omega)
            rw [hkp] at hscn
            omega
        exact ih l c (by omega) hlk hkc (by omega)
      · rw [if_neg hlt]
        have hck : c < k := by
          rcases Nat.lt_trichotomy c k with h | h | h
          · exact h
          · exact absurd (h ▸ hkp) he
          · exfalso
            have hscn := hsorted k c h hcl
            rw [hkp] at hscn
            omega
        exact ih (c + 1) r (by omega) (by omega) hkr hrn

theorem sorted_raw_of_sortedMasked {arr : List Nat} (h : SortedMasked arr) :
    ∀ i j, i < j → j < arr.length → arr.getD i 0 < arr.getD j 0 :=
  fun i j hij hj => raw_lt_of_mask7_lt (h i j hij hj)

theorem find_large_ptr_miss (ptr : Nat) (pool : pagepool_t)
    (h : ∀ i, i < pool.nextFreeIndex → pool.allocations.getD i 0 ≠ ptr) :
    find_large_ptr ptr pool = none :=
  flp_go_miss ptr pool.allocations pool.nextFreeIndex pool.nextFreeIndex 0
    pool.nextFreeIndex fun i _ hi2 => h i hi2

theorem find_large_ptr_hit (ptr : Nat) (pool : pagepool_t) (k : Nat)
    (hsorted : SortedMasked pool.allocations)
    (hlen : pool.nextFreeIndex < pool.allocations.length)
    (hkp : pool.allocations.getD k 0 = ptr) (hk : k < pool.nextFreeIndex) :
    find_large_ptr ptr pool =
      some (k, mask7 (pool.allocations.getD (k + 1) 0) - ptr) :=
  flp_go_hit ptr pool.allocations pool.nextFreeIndex k
    (sorted_raw_of_sortedMasked hsorted) hlen hkp hk pool.nextFreeIndex 0
    pool.nextFreeIndex (by omega) (Nat.zero_le _) hk (Nat.le_refl _)

/-! ## C4: invalid pointers are fatal to fffree -/

/-- C4 (corrected), counterexample: take a large pool whose first
allocation (at 2^30, 4096 bytes) has been freed, so its stored boundary
word is 2^30 + 1 (freed bit set).  The pointer 2^30 + 1 is not the live
address of any boundary entry (the claim therefore demands an abort), yet
the raw-word binary search of find_large_ptr matches the tagged word and
fffree frees it again instead of aborting. -/
theorem fffree_tagged_large_ptr_cex :
    fffree 1073741825
        (some ⟨1073741824, 1075838976, 1073750016, 2, [],
          [1073741825, 1073745920, 1073750016]⟩) = .freedLarge 0 4095 ∧
    mask7 1073741825 ≠ 1073741825 ∧
    (1073741825 : Nat) ≠ 1073741824 ∧
    (1073741825 : Nat) ≠ 1073745920 := by
  refine ⟨by decide, by decide, by decide, by decide⟩

/-- C4 (amended): a non-null pointer that the pool registry cannot
resolve aborts; one resolving to a large pool aborts whenever no stored
boundary word below nextFreeIndex is raw-equal to it (which covers a
second free of any pointer the allocator ever returned, since freeing tags
the stored word, but not the corner case of a pointer equal to a tagged
word); and one resolving to a small-pool slot whose bitmap bit is clear
aborts. -/
theorem fffree_invalid_aborts (ptr : Nat) (pool : pagepool_t)
    (hptr : ptr ≠ 0) :
    fffree ptr none = .aborted ∧
    (pool.nextFreeIndex < SIZE_MAX - 1 →
      (∀ i, i < pool.nextFreeIndex → pool.allocations.getD i 0 ≠ ptr) →
      fffree ptr (some pool) = .aborted) ∧
    (pool.nextFreeIndex = SIZE_MAX →
      mask7 (small_page ptr pool).allocSize ≠ 0 →
      ¬ (small_page ptr pool).bitmap.testBit
          ((ptr - (small_page ptr pool).start) /
            mask7 (small_page ptr pool).allocSize) →
      fffree ptr (some pool) = .aborted) := by
  have h0 : (0:Nat) < SIZE_MAX := by decide
  refine ⟨?_, ?_, ?_⟩
  · simp [fffree, hptr]
  · intro hlarge hmiss
    simp only [fffree, if_neg hptr]
    rw [if_pos hlarge, find_large_ptr_miss ptr pool hmiss]
  · intro hsmall hss hbit
    have hfs : find_small_ptr ptr pool = .misaligned ∨
        find_small_ptr ptr pool = .notAllocated := by
      simp only [find_small_ptr]
      rw [if_neg hss]
      by_cases halign :
          (ptr - (small_page ptr pool).start) %
            mask7 (small_page ptr pool).allocSize ≠ 0
      · rw [if_pos halign]
        left
        rfl
      · rw [if_neg halign]
        right
        by_cases h64 : (small_page ptr pool).allocSize < 64
        · rw [if_pos h64, if_pos hbit]
        · rw [if_neg h64, if_pos hbit]
    simp only [fffree, if_neg hptr]
    rw [if_neg (by omega : ¬ pool.nextFreeIndex < SIZE_MAX - 1),
      if_neg (by omega : ¬ pool.nextFreeIndex = SIZE_MAX - 1)]
    rcases hfs with h | h <;> rw [h]

/-- C4 witness: a pointer into a small pool whose slot bit is clear, and
the same pointer against an unresolved registry lookup and a large pool
with no matching word. -/
theorem fffree_invalid_aborts_witness :
    (8 : Nat) ≠ 0 ∧
    (fffree 8 none = .aborted ∧
      ((⟨8, 2097160, 8, SIZE_MAX, [⟨8, 16, 0⟩], []⟩ :
            pagepool_t).nextFreeIndex < SIZE_MAX - 1 →
        (∀ i, i < (⟨8, 2097160, 8, SIZE_MAX, [⟨8, 16, 0⟩], []⟩ :
            pagepool_t).nextFreeIndex →
          (⟨8, 2097160, 8, SIZE_MAX, [⟨8, 16, 0⟩], []⟩ :
            pagepool_t).allocations.getD i 0 ≠ 8) →
        fffree 8 (some ⟨8, 2097160, 8, SIZE_MAX, [⟨8, 16, 0⟩], []⟩) =
          .aborted) ∧
      ((⟨8, 2097160, 8, SIZE_MAX, [⟨8, 16, 0⟩], []⟩ :
            pagepool_t).nextFreeIndex = SIZE_MAX →
        mask7 (small_page 8
            ⟨8, 2097160, 8, SIZE_MAX, [⟨8, 16, 0⟩], []⟩).allocSize ≠ 0 →
        ¬ (small_page 8
            ⟨8, 2097160, 8, SIZE_MAX, [⟨8, 16, 0⟩], []⟩).bitmap.testBit
            ((8 - (small_page 8
              ⟨8, 2097160, 8, SIZE_MAX, [⟨8, 16, 0⟩], []⟩).start) /
              mask7 (small_page 8
                ⟨8, 2097160, 8, SIZE_MAX, [⟨8, 16, 0⟩], []⟩).allocSize) →
        fffree 8 (some ⟨8, 2097160, 8, SIZE_MAX, [⟨8, 16, 0⟩], []⟩) =
          .aborted)) :=
  ⟨by decide,
    fffree_invalid_aborts 8 ⟨8, 2097160, 8, SIZE_MAX, [⟨8, 16, 0⟩], []⟩
      (by decide)⟩

/-! ## C5: the realloc contract -/

theorem find_small_ptr_found (ptr : Nat) (pool : pagepool_t)
    (hss : mask7 (small_page ptr pool).allocSize ≠ 0)
    (halign : (ptr - (small_page ptr pool).start) %
      mask7 (small_page ptr pool).allocSize = 0)
    (hbit : (small_page ptr pool).bitmap.testBit
      ((ptr - (small_page ptr pool).start) /
        mask7 (small_page ptr pool).allocSize)) :
    find_small_ptr ptr pool =
      .found ((ptr - (small_page ptr pool).start) /
        mask7 (small_page ptr pool).allocSize) := by
  simp only [find_small_ptr]
  rw [if_neg hss, if_neg (not_not_intro halign)]
  by_cases h64 : (small_page ptr pool).allocSize < 64
  · rw [if_pos h64, if_neg (not_not_intro hbit)]
  · rw [if_neg h64, if_neg (not_not_intro hbit)]

/-- C5 (confirmed): ffrealloc(NULL, size) forwards to ffmalloc(size);
ffrealloc(ptr, 0) with non-null ptr frees ptr and returns NULL; and for a
live allocation of any tier whose current slot/class size still
accommodates the aligned new size, ffrealloc returns the same pointer with
the allocation untouched (small: the bin class size; large: the boundary
difference; jumbo: the pool size, the pointer being the pool start). -/
theorem ffrealloc_contract (ptr size k : Nat) (pool : pagepool_t)
    (lookup : Option pagepool_t) (hptr : ptr ≠ 0) (hsz : 0 < size) :
    ffrealloc 0 size lookup = .forwardMalloc size ∧
    ffrealloc ptr 0 lookup = .freeThenNull ∧
    (pool.nextFreeIndex = SIZE_MAX →
      mask7 (small_page ptr pool).allocSize ≠ 0 →
      (ptr - (small_page ptr pool).start) %
        mask7 (small_page ptr pool).allocSize = 0 →
      (small_page ptr pool).bitmap.testBit
        ((ptr - (small_page ptr pool).start) /
          mask7 (small_page ptr pool).allocSize) →
      ALIGN_SIZE size ≤ mask7 (small_page ptr pool).allocSize →
      ffrealloc ptr size (some pool) = .samePtr ptr) ∧
    (pool.nextFreeIndex < SIZE_MAX - 1 →
      SortedMasked pool.allocations →
      pool.nextFreeIndex < pool.allocations.length →
      k < pool.nextFreeIndex →
      pool.allocations.getD k 0 = ptr →
      ALIGN_SIZE size ≤ mask7 (pool.allocations.getD (k + 1) 0) - ptr →
      ffrealloc ptr size (some pool) = .samePtr ptr) ∧
    (pool.nextFreeIndex = SIZE_MAX - 1 →
      ptr = pool.start →
      ALIGN_SIZE size ≤ pool.endA - pool.start →
      ffrealloc ptr size (some pool) = .samePtr ptr) := by
  have h0 : (0:Nat) < SIZE_MAX := by decide
  have hap := ALIGN_SIZE_pos size
  refine ⟨by simp [ffrealloc], by simp [ffrealloc, hptr], ?_, ?_, ?_⟩
  · intro hsmall hss halign hbit hfit
    simp only [ffrealloc, if_neg hptr, if_neg (by omega : ¬ size = 0)]
    rw [if_neg (by omega : ¬ pool.nextFreeIndex < SIZE_MAX - 1),
      if_neg (by omega : ¬ pool.nextFreeIndex = SIZE_MAX - 1),
      find_small_ptr_found ptr pool hss halign hbit]
    simp only [if_pos hfit]
  · intro hlarge hsorted hlen hk hkp hfit
    simp only [ffrealloc, if_neg hptr, if_neg (by omega : ¬ size = 0)]
    rw [if_pos hlarge, find_large_ptr_hit ptr pool k hsorted hlen hkp hk]
    simp only [if_neg (by omega :
        ¬ mask7 (pool.allocations.getD (k + 1) 0) - ptr = 0),
      if_pos hfit]
  · intro hjumbo hjp hfit
    simp only [ffrealloc, if_neg hptr, if_neg (by omega : ¬ size = 0)]
    rw [if_neg (by omega : ¬ pool.nextFreeIndex < SIZE_MAX - 1),
      if_pos hjumbo]
    simp only [if_pos hfit, hjp]

/-- C5 witness: a live 16-byte small slot reallocated to 5 bytes keeps
its pointer; the NULL-pointer and zero-size clauses are exercised on the
same inputs. -/
theorem ffrealloc_contract_witness :
    (8 : Nat) ≠ 0 ∧ (0 : Nat) < 5 ∧
    (ffrealloc 0 5 (some ⟨8, 4104, 8, SIZE_MAX, [⟨8, 16, 1⟩], []⟩) =
        .forwardMalloc 5 ∧
      ffrealloc 8 0 (some ⟨8, 4104, 8, SIZE_MAX, [⟨8, 16, 1⟩], []⟩) =
        .freeThenNull ∧
      ((⟨8, 4104, 8, SIZE_MAX, [⟨8, 16, 1⟩], []⟩ :
            pagepool_t).nextFreeIndex = SIZE_MAX →
        mask7 (small_page 8
          ⟨8, 4104, 8, SIZE_MAX, [⟨8, 16, 1⟩], []⟩).allocSize ≠ 0 →
        (8 - (small_page 8
            ⟨8, 4104, 8, SIZE_MAX, [⟨8, 16, 1⟩], []⟩).start) %
          mask7 (small_page 8
            ⟨8, 4104, 8, SIZE_MAX, [⟨8, 16, 1⟩], []⟩).allocSize = 0 →
        (small_page 8
            ⟨8, 4104, 8, SIZE_MAX, [⟨8, 16, 1⟩], []⟩).bitmap.testBit
          ((8 - (small_page 8
              ⟨8, 4104, 8, SIZE_MAX, [⟨8, 16, 1⟩], []⟩).start) /
            mask7 (small_page 8
              ⟨8, 4104, 8, SIZE_MAX, [⟨8, 16, 1⟩], []⟩).allocSize) →
        ALIGN_SIZE 5 ≤ mask7 (small_page 8
          ⟨8, 4104, 8, SIZE_MAX, [⟨8, 16, 1⟩], []⟩).allocSize →
        ffrealloc 8 5 (some ⟨8, 4104, 8, SIZE_MAX, [⟨8, 16, 1⟩], []⟩) =
          .samePtr 8) ∧
      ((⟨8, 4104, 8, SIZE_MAX, [⟨8, 16, 1⟩], []⟩ :
            pagepool_t).nextFreeIndex < SIZE_MAX - 1 →
        SortedMasked (⟨8, 4104, 8, SIZE_MAX, [⟨8, 16, 1⟩], []⟩ :
          pagepool_t).allocations →
        (⟨8, 4104, 8, SIZE_MAX, [⟨8, 16, 1⟩], []⟩ :
            pagepool_t).nextFreeIndex <
          (⟨8, 4104, 8, SIZE_MAX, [⟨8, 16, 1⟩], []⟩ :
            pagepool_t).allocations.length →
        0 < (⟨8, 4104, 8, SIZE_MAX, [⟨8, 16, 1⟩], []⟩ :
            pagepool_t).nextFreeIndex →
        (⟨8, 4104, 8, SIZE_MAX, [⟨8, 16, 1⟩], []⟩ :
            pagepool_t).allocations.getD 0 0 = 8 →
        ALIGN_SIZE 5 ≤ mask7 ((⟨8, 4104, 8, SIZE_MAX, [⟨8, 16, 1⟩], []⟩ :
            pagepool_t).allocations.getD (0 + 1) 0) - 8 →
        ffrealloc 8 5 (some ⟨8, 4104, 8, SIZE_MAX, [⟨8, 16, 1⟩], []⟩) =
          .samePtr 8) ∧
      ((⟨8, 4104, 8, SIZE_MAX, [⟨8, 16, 1⟩], []⟩ :
            pagepool_t).nextFreeIndex = SIZE_MAX - 1 →
        8 = (⟨8, 4104, 8, SIZE_MAX, [⟨8, 16, 1⟩], []⟩ :
          pagepool_t).start →
        ALIGN_SIZE 5 ≤ (⟨8, 4104, 8, SIZE_MAX, [⟨8, 16, 1⟩], []⟩ :
            pagepool_t).endA -
          (⟨8, 4104, 8, SIZE_MAX, [⟨8, 16, 1⟩], []⟩ : pagepool_t).start →
        ffrealloc 8 5 (some ⟨8, 4104, 8, SIZE_MAX, [⟨8, 16, 1⟩], []⟩) =
          .samePtr 8)) :=
  ⟨by decide, by decide,
    ffrealloc_contract 8 5 0 ⟨8, 4104, 8, SIZE_MAX, [⟨8, 16, 1⟩], []⟩
      (some ⟨8, 4104, 8, SIZE_MAX, [⟨8, 16, 1⟩], []⟩) (by decide)
      (by decide)⟩

/-! ## C6: malloc_usable_size -/

/-- C6 (corrected), counterexample: a pointer into a small pool whose page
map was never assigned to a bin (allocSize still 0, as the zero-filled
metadata leaves it) does not resolve to a live allocation, so the claim
requires the return value 0; instead find_small_ptr divides by the masked
slot size 0, which is undefined behaviour, not a 0 return. -/
theorem usable_size_divzero_cex :
    ffmalloc_usable_size 4096
        (some ⟨4096, 2101248, 4096, SIZE_MAX, [⟨0, 0, 0⟩], []⟩) = none ∧
    ffmalloc_usable_size 4096
        (some ⟨4096, 2101248, 4096, SIZE_MAX, [⟨0, 0, 0⟩], []⟩) ≠
      some 0 := by
  refine ⟨by decide, by decide⟩

/-- C6 (amended): ffmalloc_usable_size returns the masked bin class size
for a live small allocation, the status-masked boundary difference
arr[k+1] - arr[k] for a live large allocation, pool->end - pool->start
for a jumbo allocation, and 0 for NULL, for a pointer the registry cannot
resolve, for a small-pool slot whose bit is clear, and for a large pool
with no matching boundary word - except that a pointer into a small-pool
page never assigned to a bin hits an undefined division instead of
returning 0. -/
theorem ffmalloc_usable_size_spec (ptr k : Nat) (pool : pagepool_t)
    (lookup : Option pagepool_t) (hptr : ptr ≠ 0) :
    ffmalloc_usable_size 0 lookup = some 0 ∧
    ffmalloc_usable_size ptr none = some 0 ∧
    (pool.nextFreeIndex = SIZE_MAX →
      mask7 (small_page ptr pool).allocSize ≠ 0 →
      (ptr - (small_page ptr pool).start) %
        mask7 (small_page ptr pool).allocSize = 0 →
      (small_page ptr pool).bitmap.testBit
        ((ptr - (small_page ptr pool).start) /
          mask7 (small_page ptr pool).allocSize) →
      ffmalloc_usable_size ptr (some pool) =
        some (mask7 (small_page ptr pool).allocSize)) ∧
    (pool.nextFreeIndex = SIZE_MAX →
      mask7 (small_page ptr pool).allocSize ≠ 0 →
      ¬ (small_page ptr pool).bitmap.testBit
        ((ptr - (small_page ptr pool).start) /
          mask7 (small_page ptr pool).allocSize) →
      ffmalloc_usable_size ptr (some pool) = some 0) ∧
    (pool.nextFreeIndex < SIZE_MAX - 1 →
      SortedMasked pool.allocations →
      pool.nextFreeIndex < pool.allocations.length →
      k < pool.nextFreeIndex →
      pool.allocations.getD k 0 = ptr →
      mask7 (pool.allocations.getD k 0) = pool.allocations.getD k 0 →
      ffmalloc_usable_size ptr (some pool) =
        some (mask7 (pool.allocations.getD (k + 1) 0) -
          mask7 (pool.allocations.getD k 0))) ∧
    (pool.nextFreeIndex < SIZE_MAX - 1 →
      (∀ i, i < pool.nextFreeIndex → pool.allocations.getD i 0 ≠ ptr) →
      ffmalloc_usable_size ptr (some pool) = some 0) ∧
    (pool.nextFreeIndex = SIZE_MAX - 1 →
      ffmalloc_usable_size ptr (some pool) =
        some (pool.endA - pool.start)) := by
  have h0 : (0:Nat) < SIZE_MAX := by decide
  refine ⟨by simp [ffmalloc_usable_size], by simp [ffmalloc_usable_size, hptr],
    ?_, ?_, ?_, ?_, ?_⟩
  · intro hsmall hss halign hbit
    simp only [ffmalloc_usable_size, if_neg hptr]
    rw [if_neg (by omega : ¬ pool.nextFreeIndex < SIZE_MAX - 1),
      if_neg (by omega : ¬ pool.nextFreeIndex = SIZE_MAX - 1),
      find_small_ptr_found ptr pool hss halign hbit]
  · intro hsmall hss hbit
    have hfs : find_small_ptr ptr pool = .misaligned ∨
        find_small_ptr ptr pool = .notAllocated := by
      simp only [find_small_ptr]
      rw [if_neg hss]
      by_cases halign :
          (ptr - (small_page ptr pool).start) %
            mask7 (small_page ptr pool).allocSize ≠ 0
      · rw [if_pos halign]
        left
        rfl
      · rw [if_neg halign]
        right
        by_cases h64 : (small_page ptr pool).allocSize < 64
        · rw [if_pos h64, if_pos hbit]
        · rw [if_neg h64, if_pos hbit]
    simp only [ffmalloc_usable_size, if_neg hptr]
    rw [if_neg (by omega : ¬ pool.nextFreeIndex < SIZE_MAX - 1),
      if_neg (by omega : ¬ pool.nextFreeIndex = SIZE_MAX - 1)]
    rcases hfs with h | h <;> rw [h]
  · intro hlarge hsorted hlen hk hkp hclean
    simp only [ffmalloc_usable_size, if_neg hptr]
    rw [if_pos hlarge, find_large_ptr_hit ptr pool k hsorted hlen hkp hk,
      hclean, hkp]
  · intro hlarge hmiss
    simp only [ffmalloc_usable_size, if_neg hptr]
    rw [if_pos hlarge, find_large_ptr_miss ptr pool hmiss]
  · intro hjumbo
    simp only [ffmalloc_usable_size, if_neg hptr]
    rw [if_neg (by omega : ¬ pool.nextFreeIndex < SIZE_MAX - 1),
      if_pos hjumbo]

/-- C6 witness: a live 16-byte slot at the start of a small pool reports
usable size 16. -/
theorem ffmalloc_usable_size_spec_witness :
    (8 : Nat) ≠ 0 ∧
    (ffmalloc_usable_size 0 none = some 0 ∧
      ffmalloc_usable_size 8 none = some 0 ∧
      ((⟨8, 4104, 8, SIZE_MAX, [⟨8, 16, 1⟩], []⟩ :
            pagepool_t).nextFreeIndex = SIZE_MAX →
        mask7 (small_page 8
          ⟨8, 4104, 8, SIZE_MAX, [⟨8, 16, 1⟩], []⟩).allocSize ≠ 0 →
        (8 - (small_page 8
            ⟨8, 4104, 8, SIZE_MAX, [⟨8, 16, 1⟩], []⟩).start) %
          mask7 (small_page 8
            ⟨8, 4104, 8, SIZE_MAX, [⟨8, 16, 1⟩], []⟩).allocSize = 0 →
        (small_page 8
            ⟨8, 4104, 8, SIZE_MAX, [⟨8, 16, 1⟩], []⟩).bitmap.testBit
          ((8 - (small_page 8
              ⟨8, 4104, 8, SIZE_MAX, [⟨8, 16, 1⟩], []⟩).start) /
            mask7 (small_page 8
              ⟨8, 4104, 8, SIZE_MAX, [⟨8, 16, 1⟩], []⟩).allocSize) →
        ffmalloc_usable_size 8
            (some ⟨8, 4104, 8, SIZE_MAX, [⟨8, 16, 1⟩], []⟩) =
          some (mask7 (small_page 8
            ⟨8, 4104, 8, SIZE_MAX, [⟨8, 16, 1⟩], []⟩).allocSize)) ∧
      ((⟨8, 4104, 8, SIZE_MAX, [⟨8, 16, 1⟩], []⟩ :
            pagepool_t).nextFreeIndex = SIZE_MAX →
        mask7 (small_page 8
          ⟨8, 4104, 8, SIZE_MAX, [⟨8, 16, 1⟩], []⟩).allocSize ≠ 0 →
        ¬ (small_page 8
            ⟨8, 4104, 8, SIZE_MAX, [⟨8, 16, 1⟩], []⟩).bitmap.testBit
          ((8 - (small_page 8
              ⟨8, 4104, 8, SIZE_MAX, [⟨8, 16, 1⟩], []⟩).start) /
            mask7 (small_page 8
              ⟨8, 4104, 8, SIZE_MAX, [⟨8, 16, 1⟩], []⟩).allocSize) →
        ffmalloc_usable_size 8
            (some ⟨8, 4104, 8, SIZE_MAX, [⟨8, 16, 1⟩], []⟩) = some 0) ∧
      ((⟨8, 4104, 8, SIZE_MAX, [⟨8, 16, 1⟩], []⟩ :
            pagepool_t).nextFreeIndex < SIZE_MAX - 1 →
        SortedMasked (⟨8, 4104, 8, SIZE_MAX, [⟨8, 16, 1⟩], []⟩ :
          pagepool_t).allocations →
        (⟨8, 4104, 8, SIZE_MAX, [⟨8, 16, 1⟩], []⟩ :
            pagepool_t).nextFreeIndex <
          (⟨8, 4104, 8, SIZE_MAX, [⟨8, 16, 1⟩], []⟩ :
            pagepool_t).allocations.length →
        0 < (⟨8, 4104, 8, SIZE_MAX, [⟨8, 16, 1⟩], []⟩ :
          pagepool_t).nextFreeIndex →
        (⟨8, 4104, 8, SIZE_MAX, [⟨8, 16, 1⟩], []⟩ :
            pagepool_t).allocations.getD 0 0 = 8 →
        mask7 ((⟨8, 4104, 8, SIZE_MAX, [⟨8, 16, 1⟩], []⟩ :
            pagepool_t).allocations.getD 0 0) =
          (⟨8, 4104, 8, SIZE_MAX, [⟨8, 16, 1⟩], []⟩ :
            pagepool_t).allocations.getD 0 0 →
        ffmalloc_usable_size 8
            (some ⟨8, 4104, 8, SIZE_MAX, [⟨8, 16, 1⟩], []⟩) =
          some (mask7 ((⟨8, 4104, 8, SIZE_MAX, [⟨8, 16, 1⟩], []⟩ :
              pagepool_t).allocations.getD (0 + 1) 0) -
            mask7 ((⟨8, 4104, 8, SIZE_MAX, [⟨8, 16, 1⟩], []⟩ :
              pagepool_t).allocations.getD 0 0))) ∧
      ((⟨8, 4104, 8, SIZE_MAX, [⟨8, 16, 1⟩], []⟩ :
            pagepool_t).nextFreeIndex < SIZE_MAX - 1 →
        (∀ i, i < (⟨8, 4104, 8, SIZE_MAX, [⟨8, 16, 1⟩], []⟩ :
            pagepool_t).nextFreeIndex →
          (⟨8, 4104, 8, SIZE_MAX, [⟨8, 16, 1⟩], []⟩ :
            pagepool_t).allocations.getD i 0 ≠ 8) →
        ffmalloc_usable_size 8
            (some ⟨8, 4104, 8, SIZE_MAX, [⟨8, 16, 1⟩], []⟩) = some 0) ∧
      ((⟨8, 4104, 8, SIZE_MAX, [⟨8, 16, 1⟩], []⟩ :
            pagepool_t).nextFreeIndex = SIZE_MAX - 1 →
        ffmalloc_usable_size 8
            (some ⟨8, 4104, 8, SIZE_MAX, [⟨8, 16, 1⟩], []⟩) =
          some ((⟨8, 4104, 8, SIZE_MAX, [⟨8, 16, 1⟩], []⟩ :
              pagepool_t).endA -
            (⟨8, 4104, 8, SIZE_MAX, [⟨8, 16, 1⟩], []⟩ :
              pagepool_t).start))) :=
  ⟨by decide,
    ffmalloc_usable_size_spec 8 0 ⟨8, 4104, 8, SIZE_MAX, [⟨8, 16, 1⟩], []⟩
      none (by decide)⟩

/-! ## C9: list access lemmas for the boundary-array operations -/

theorem getD_set (l : List Nat) :
    ∀ i k v, (l.set k v).getD i 0 =
      if k = i ∧ k < l.length then v else l.getD i 0 := by
  induction l with
  | nil => intro i k v; simp [List.set_nil]
  | cons a as ih =>
    intro i k v
    cases k with
    | zero =>
      cases i with
      | zero => simp
      | succ i => simp
    | succ k =>
      cases i with
      | zero => simp
      | succ i =>
        simp only [List.set_cons_succ, List.getD_cons_succ, List.length_cons]
        rw [ih i k v]
        exact if_congr (by omega) rfl rfl

theorem getD_append_lt (l : List Nat) (x : Nat) (i : Nat)
    (h : i < l.length) : (l ++ [x]).getD i 0 = l.getD i 0 := by
  induction l generalizing i with
  | nil => simp at h
  | cons a as ih =>
    cases i with
    | zero => simp
    | succ i =>
      simp only [List.cons_append, List.getD_cons_succ]
      exact ih i (by simp at h; omega)

theorem getD_append_len (l : List Nat) (x : Nat) :
    (l ++ [x]).getD l.length 0 = x := by
  induction l with
  | nil => rfl
  | cons a as ih => simpa using ih

theorem orRangeGo_length (bits f l : Nat) :
    ∀ arr i0, (orRangeGo bits f l i0 arr).length = arr.length := by
  intro arr
  induction arr with
  | nil => intro i0; rfl
  | cons a as ih => intro i0; simp [orRangeGo, ih]

theorem orRangeGo_getD (bits f l : Nat) :
    ∀ arr i0 i, (orRangeGo bits f l i0 arr).getD i 0 =
      if f ≤ i0 + i ∧ i0 + i ≤ l ∧ i < arr.length then
        arr.getD i 0 ||| bits
      else arr.getD i 0 := by
  intro arr
  induction arr with
  | nil => intro i0 i; simp [orRangeGo]
  | cons a as ih =>
    intro i0 i
    cases i with
    | zero =>
      simp only [orRangeGo, List.getD_cons_zero, List.length_cons]
      exact if_congr (by omega) rfl rfl
    | succ i =>
      simp only [orRangeGo, List.getD_cons_succ, List.length_cons]
      rw [ih (i0 + 1) i]
      exact if_congr (by omega) rfl rfl

theorem mask7_getD_set_lor (arr : List Nat) (k m i : Nat) (hm : m < 8) :
    mask7 ((arr.set k (arr.getD k 0 ||| m)).getD i 0) =
      mask7 (arr.getD i 0) := by
  rw [getD_set]
  split_ifs with hc
  · rcases hc with ⟨hk, _⟩
    subst hk
    exact mask7_lor_small _ m hm
  · rfl

theorem sortedMasked_set_lor (arr : List Nat) (k m : Nat) (hm : m < 8)
    (h : SortedMasked arr) :
    SortedMasked (arr.set k (arr.getD k 0 ||| m)) := by
  intro i j hij hj
  rw [List.length_set] at hj
  rw [mask7_getD_set_lor arr k m i hm, mask7_getD_set_lor arr k m j hm]
  exact h i j hij hj

theorem largeInv_set_lor (pool : pagepool_t) (index m : Nat) (hm : m < 8)
    (hinv : LargeInv pool) :
    LargeInv { pool with allocations :=
      pool.allocations.set index (pool.allocations.getD index 0 ||| m) } := by
  obtain ⟨hlen, hsort, hsent, hle, hd1, hd2⟩ := hinv
  refine ⟨?_, ?_, ?_, hle, hd1, hd2⟩
  · show (pool.allocations.set index
      (pool.allocations.getD index 0 ||| m)).length = pool.nextFreeIndex + 1
    rw [List.length_set]
    exact hlen
  · exact sortedMasked_set_lor pool.allocations index m hm hsort
  · show mask7 ((pool.allocations.set index
        (pool.allocations.getD index 0 ||| m)).getD pool.nextFreeIndex 0) =
      pool.nextFreePage
    rw [mask7_getD_set_lor pool.allocations index m pool.nextFreeIndex hm]
    exact hsent

theorem largeInv_free_mark (pool : pagepool_t) (index : Nat)
    (hinv : LargeInv pool) : LargeInv (free_large_mark pool index) :=
  largeInv_set_lor pool index 1 (by omega) hinv

theorem largeInv_mark_unmapped (pool : pagepool_t) (first last : Nat)
    (hinv : LargeInv pool) :
    LargeInv (mark_unmapped_range pool first last) := by
  obtain ⟨hlen, hsort, hsent, hle, hd1, hd2⟩ := hinv
  have hmask : ∀ i, mask7 ((orRangeGo 3 first last 0
      pool.allocations).getD i 0) = mask7 (pool.allocations.getD i 0) := by
    intro i
    rw [orRangeGo_getD]
    split_ifs with hc
    · exact mask7_lor_small _ 3 (by omega)
    · rfl
  refine ⟨?_, ?_, ?_, hle, hd1, hd2⟩
  · show (orRangeGo 3 first last 0 pool.allocations).length =
      pool.nextFreeIndex + 1
    rw [orRangeGo_length]
    exact hlen
  · intro i j hij hj
    rw [show (mark_unmapped_range pool first last).allocations =
      orRangeGo 3 first last 0 pool.allocations from rfl] at hj ⊢
    rw [orRangeGo_length] at hj
    rw [hmask i, hmask j]
    exact hsort i j hij hj
  · show mask7 ((orRangeGo 3 first last 0
        pool.allocations).getD pool.nextFreeIndex 0) = pool.nextFreePage
    rw [hmask]
    exact hsent

theorem largeInv_from_pool (pool : pagepool_t) (size alignment : Nat)
    (hinv : LargeInv pool) (hsz : 0 < size) (hds : 8 ∣ size)
    (hda : 8 ∣ alignment) (hapos : 0 < alignment)
    (hfit : ALIGN_TO pool.nextFreePage alignment + size ≤ pool.endA) :
    LargeInv (ffmalloc_large_from_pool size alignment pool).2 := by
  obtain ⟨hlen, hsort, hsent, hle, hd1, hd2⟩ := hinv
  have hnfpA : pool.nextFreePage ≤ ALIGN_TO pool.nextFreePage alignment :=
    ALIGN_TO_le _ _ hapos
  have hAd : 8 ∣ ALIGN_TO pool.nextFreePage alignment :=
    dvd_trans hda (ALIGN_TO_dvd _ _ hapos)
  have hnfp1d : 8 ∣ (ALIGN_TO pool.nextFreePage alignment + size) :=
    Nat.dvd_add hAd hds
  set A := ALIGN_TO pool.nextFreePage alignment with hA
  set arr1 := (if MIN_ALIGNMENT < alignment then
      pool.allocations.set pool.nextFreeIndex A
    else pool.allocations) with harr1
  have hlen1 : arr1.length = pool.nextFreeIndex + 1 := by
    rw [harr1]
    split
    · rw [List.length_set]
      exact hlen
    · exact hlen
  have hget1_lt : ∀ i, i < pool.nextFreeIndex →
      arr1.getD i 0 = pool.allocations.getD i 0 := by
    intro i hi
    rw [harr1]
    split
    · rw [getD_set, if_neg (by rintro ⟨h1, _⟩; omega)]
    · rfl
  have hsent1l : pool.nextFreePage ≤
      mask7 (arr1.getD pool.nextFreeIndex 0) := by
    rw [harr1]
    split
    · rw [getD_set, if_pos ⟨rfl, by omega⟩, mask7_of_dvd hAd]
      exact hnfpA
    · rw [hsent]
  have hsent1r : mask7 (arr1.getD pool.nextFreeIndex 0) ≤ A := by
    rw [harr1]
    split
    · rw [getD_set, if_pos ⟨rfl, by omega⟩, mask7_of_dvd hAd]
    · rw [hsent]
      exact hnfpA
  have hget2_le : ∀ i, i ≤ pool.nextFreeIndex →
      (arr1 ++ [A + size]).getD i 0 = arr1.getD i 0 := by
    intro i hi
    exact getD_append_lt arr1 _ i (by omega)
  have hget2_last :
      (arr1 ++ [A + size]).getD (pool.nextFreeIndex + 1) 0 = A + size := by
    have h := getD_append_len arr1 (A + size)
    rwa [hlen1] at h
  have hsortA : ∀ i, i ≤ pool.nextFreeIndex →
      mask7 ((arr1 ++ [A + size]).getD i 0) < A + size := by
    intro i hi
    rw [hget2_le i hi]
    by_cases hin : i = pool.nextFreeIndex
    · subst hin
      omega
    · have h1 := hsort i pool.nextFreeIndex (by omega) (by omega)
      rw [hsent] at h1
      rw [hget1_lt i (by omega)]
      omega
  have hsort2 : SortedMasked (arr1 ++ [A + size]) := by
    intro i j hij hj
    rw [List.length_append, hlen1, List.length_singleton] at hj
    by_cases hjl : j = pool.nextFreeIndex + 1
    · subst hjl
      rw [hget2_last, mask7_of_dvd hnfp1d]
      exact hsortA i (by omega)
    · rw [hget2_le i (by omega), hget2_le j (by omega)]
      by_cases hjn : j = pool.nextFreeIndex
      · subst hjn
        have h1 := hsort i pool.nextFreeIndex (by omega) (by omega)
        rw [hsent] at h1
        rw [hget1_lt i (by omega)]
        omega
      · rw [hget1_lt i (by omega), hget1_lt j (by omega)]
        exact hsort i j hij (by omega)
  have hstep : (ffmalloc_large_from_pool size alignment pool).2 =
      if pool.endA - (A + size) < HALF_PAGE + MIN_ALIGNMENT then
        { pool with
            allocations :=
              (arr1 ++ [A + size]).set (pool.nextFreeIndex + 1) pool.endA
            nextFreePage := pool.endA
            nextFreeIndex := pool.nextFreeIndex + 1 }
      else
        { pool with
            allocations := arr1 ++ [A + size]
            nextFreePage := A + size
            nextFreeIndex := pool.nextFreeIndex + 1 } := by
    simp only [ffmalloc_large_from_pool]
    rw [← hA, ← harr1]
    split_ifs <;> rfl
  rw [hstep]
  split_ifs with htail
  · have hin2 : pool.nextFreeIndex + 1 < (arr1 ++ [A + size]).length := by
      rw [List.length_append, hlen1, List.length_singleton]
      omega
    refine ⟨?_, ?_, ?_, Nat.le_refl _, hd2, hd2⟩
    · show ((arr1 ++ [A + size]).set (pool.nextFreeIndex + 1)
        pool.endA).length = pool.nextFreeIndex + 1 + 1
      rw [List.length_set, List.length_append, hlen1, List.length_singleton]
    · intro i j hij hj
      have hj2 : j < ((arr1 ++ [A + size]).set (pool.nextFreeIndex + 1)
          pool.endA).length := hj
      rw [List.length_set, List.length_append, hlen1,
        List.length_singleton] at hj2
      show mask7 (((arr1 ++ [A + size]).set (pool.nextFreeIndex + 1)
          pool.endA).getD i 0) <
        mask7 (((arr1 ++ [A + size]).set (pool.nextFreeIndex + 1)
          pool.endA).getD j 0)
      by_cases hjl : j = pool.nextFreeIndex + 1
      · subst hjl
        rw [getD_set, if_neg (by rintro ⟨h1, _⟩; omega), getD_set,
          if_pos ⟨rfl, hin2⟩, mask7_of_dvd hd2]
        have hbound := hsortA i (by omega)
        omega
      · rw [getD_set, if_neg (by rintro ⟨h1, _⟩; omega), getD_set,
          if_neg (by rintro ⟨h1, _⟩; omega)]
        exact hsort2 i j hij (by
          rw [List.length_append, hlen1, List.length_singleton]
          omega)
    · show mask7 (((arr1 ++ [A + size]).set (pool.nextFreeIndex + 1)
          pool.endA).getD (pool.nextFreeIndex + 1) 0) = pool.endA
      rw [getD_set, if_pos ⟨rfl, hin2⟩, mask7_of_dvd hd2]
  · refine ⟨?_, hsort2, ?_, hfit, hnfp1d, hd2⟩
    · show (arr1 ++ [A + size]).length = pool.nextFreeIndex + 1 + 1
      rw [List.length_append, hlen1, List.length_singleton]
    · show mask7 ((arr1 ++ [A + size]).getD (pool.nextFreeIndex + 1) 0) =
        A + size
      rw [hget2_last, mask7_of_dvd hnfp1d]

theorem largeInv_trim (pool : pagepool_t) (hinv : LargeInv pool) :
    LargeInv (trim_large_pool pool) := by
  obtain ⟨hlen, hsort, hsent, hle, hd1, hd2⟩ := hinv
  have hpool1 : LargeInv
      (if pool.allocations.getD pool.nextFreeIndex 0 < pool.endA then
        free_large_mark
          { pool with
              nextFreeIndex := pool.nextFreeIndex + 1
              allocations := pool.allocations ++ [pool.endA]
              nextFreePage := pool.endA }
          (({ pool with
              nextFreeIndex := pool.nextFreeIndex + 1
              allocations := pool.allocations ++ [pool.endA]
              nextFreePage := pool.endA } : pagepool_t).nextFreeIndex - 1)
      else pool) := by
    split_ifs with hslack
    · apply largeInv_free_mark
      have hlast : (pool.allocations ++ [pool.endA]).getD
          (pool.nextFreeIndex + 1) 0 = pool.endA := by
        have h := getD_append_len pool.allocations pool.endA
        rwa [hlen] at h
      refine ⟨?_, ?_, ?_, Nat.le_refl _, hd2, hd2⟩
      · show (pool.allocations ++ [pool.endA]).length =
          pool.nextFreeIndex + 1 + 1
        rw [List.length_append, hlen, List.length_singleton]
      · intro i j hij hj
        have hj2 : j < (pool.allocations ++ [pool.endA]).length := hj
        rw [List.length_append, hlen, List.length_singleton] at hj2
        show mask7 ((pool.allocations ++ [pool.endA]).getD i 0) <
          mask7 ((pool.allocations ++ [pool.endA]).getD j 0)
        have hilen : ∀ t, t ≤ pool.nextFreeIndex →
            (pool.allocations ++ [pool.endA]).getD t 0 =
              pool.allocations.getD t 0 := by
          intro t ht
          exact getD_append_lt _ _ t (by omega)
        by_cases hjl : j = pool.nextFreeIndex + 1
        · subst hjl
          rw [hlast, hilen i (by omega), mask7_of_dvd hd2]
          by_cases hin : i = pool.nextFreeIndex
          · subst hin
            have hm := mask7_le
              (pool.allocations.getD pool.nextFreeIndex 0)
            omega
          · have h1 := hsort i pool.nextFreeIndex (by omega) (by omega)
            have h2 := mask7_le
              (pool.allocations.getD pool.nextFreeIndex 0)
            omega
        · rw [hilen i (by omega), hilen j (by omega)]
          exact hsort i j hij (by omega)
      · show mask7 ((pool.allocations ++ [pool.endA]).getD
            (pool.nextFreeIndex + 1) 0) = pool.endA
        rw [hlast, mask7_of_dvd hd2]
    · exact ⟨hlen, hsort, hsent, hle, hd1, hd2⟩
  exact largeInv_set_lor _ _ 4 (by omega) hpool1

/-- C9 (confirmed): in every reachable large-pool state (captured by
LargeInv, which the pool constructor establishes), the boundary entries up
to nextFreeIndex are strictly increasing after masking their low status
bits, and each operation on the pool preserves this: appending an
allocation (including the extend-previous-boundary alignment case and the
tail-slack consumption, both inside ffmalloc_large_from_pool), marking an
entry freed, marking a contiguous range unmapped, and trimming the
pool. -/
theorem large_metadata_sorted_preserved (pool : pagepool_t)
    (hinv : LargeInv pool) :
    (∀ size alignment, 0 < size → 8 ∣ size → 8 ∣ alignment →
      0 < alignment →
      ALIGN_TO pool.nextFreePage alignment + size ≤ pool.endA →
      SortedMasked
        (ffmalloc_large_from_pool size alignment pool).2.allocations ∧
      LargeInv (ffmalloc_large_from_pool size alignment pool).2) ∧
    (∀ index, SortedMasked (free_large_mark pool index).allocations ∧
      LargeInv (free_large_mark pool index)) ∧
    (∀ first last, SortedMasked
        (mark_unmapped_range pool first last).allocations ∧
      LargeInv (mark_unmapped_range pool first last)) ∧
    (SortedMasked (trim_large_pool pool).allocations ∧
      LargeInv (trim_large_pool pool)) := by
  refine ⟨?_, ?_, ?_, ?_⟩
  · intro size alignment h1 h2 h3 h4 h5
    have h := largeInv_from_pool pool size alignment hinv h1 h2 h3 h4 h5
    exact ⟨h.2.1, h⟩
  · intro index
    have h := largeInv_free_mark pool index hinv
    exact ⟨h.2.1, h⟩
  · intro first last
    have h := largeInv_mark_unmapped pool first last hinv
    exact ⟨h.2.1, h⟩
  · have h := largeInv_trim pool hinv
    exact ⟨h.2.1, h⟩

/-- C9 witness: a freshly created large pool (one sentinel entry at the
pool start, as create_largepagepool writes it) satisfies the invariant,
so every operation preserves its sortedness. -/
theorem large_metadata_sorted_preserved_witness :
    LargeInv ⟨0, POOL_SIZE, 0, 0, [], [0]⟩ ∧
    ((∀ size alignment, 0 < size → 8 ∣ size → 8 ∣ alignment →
        0 < alignment →
        ALIGN_TO (⟨0, POOL_SIZE, 0, 0, [], [0]⟩ :
            pagepool_t).nextFreePage alignment + size ≤
          (⟨0, POOL_SIZE, 0, 0, [], [0]⟩ : pagepool_t).endA →
        SortedMasked (ffmalloc_large_from_pool size alignment
          ⟨0, POOL_SIZE, 0, 0, [], [0]⟩).2.allocations ∧
        LargeInv (ffmalloc_large_from_pool size alignment
          ⟨0, POOL_SIZE, 0, 0, [], [0]⟩).2) ∧
      (∀ index, SortedMasked (free_large_mark
          ⟨0, POOL_SIZE, 0, 0, [], [0]⟩ index).allocations ∧
        LargeInv (free_large_mark ⟨0, POOL_SIZE, 0, 0, [], [0]⟩ index)) ∧
      (∀ first last, SortedMasked (mark_unmapped_range
          ⟨0, POOL_SIZE, 0, 0, [], [0]⟩ first last).allocations ∧
        LargeInv (mark_unmapped_range ⟨0, POOL_SIZE, 0, 0, [], [0]⟩
          first last)) ∧
      (SortedMasked (trim_large_pool
          ⟨0, POOL_SIZE, 0, 0, [], [0]⟩).allocations ∧
        LargeInv (trim_large_pool ⟨0, POOL_SIZE, 0, 0, [], [0]⟩))) := by
  have hinv : LargeInv ⟨0, POOL_SIZE, 0, 0, [], [0]⟩ := by
    refine ⟨rfl, ?_, by decide, by decide, by decide, by decide⟩
    intro i j hij hj
    simp only [List.length_singleton] at hj
    exact absurd hij (by omega)
  exact ⟨hinv, large_metadata_sorted_preserved _ hinv⟩

/-! ## C7: power-of-two arithmetic for the alignment law -/

theorem pow2_le_pow2_iff (j k : Nat) : 2 ^ j ≤ 2 ^ k ↔ j ≤ k := by
  constructor
  · intro h
    by_contra hc
    push_neg at hc
    have := Nat.pow_lt_pow_right (by omega : 1 < 2) hc
    omega
  · intro h
    exact Nat.pow_le_pow_right (by omega) h

theorem popCountGo_zero (fuel : Nat) : popCountGo fuel 0 = 0 := by
  cases fuel with
  | zero => rfl
  | succ fuel => simp [popCountGo]

theorem popCountGo_eq_zero_iff :
    ∀ fuel n, n < 2 ^ fuel → (popCountGo fuel n = 0 ↔ n = 0) := by
  intro fuel
  induction fuel with
  | zero =>
    intro n hn
    simp at hn
    subst hn
    simp [popCountGo]
  | succ fuel ih =>
    intro n hn
    by_cases h0 : n = 0
    · subst h0
      simp [popCountGo_zero]
    · simp only [popCountGo, if_neg h0]
      have hps : (2:Nat) ^ (fuel + 1) = 2 ^ fuel * 2 := pow_succ 2 fuel
      have hih := ih (n / 2) (by omega)
      omega

theorem popCountGo_eq_one_iff :
    ∀ fuel n, n < 2 ^ fuel →
      (popCountGo fuel n = 1 ↔ ∃ k, n = 2 ^ k) := by
  intro fuel
  induction fuel with
  | zero =>
    intro n hn
    simp at hn
    subst hn
    constructor
    · intro h
      simp [popCountGo] at h
    · rintro ⟨k, hk⟩
      have := pow_pos (by omega : (0:Nat) < 2) k
      omega
  | succ fuel ih =>
    intro n hn
    have hps : (2:Nat) ^ (fuel + 1) = 2 ^ fuel * 2 := pow_succ 2 fuel
    by_cases h0 : n = 0
    · subst h0
      rw [popCountGo_zero]
      constructor
      · omega
      · rintro ⟨k, hk⟩
        have := pow_pos (by omega : (0:Nat) < 2) k
        omega
    · simp only [popCountGo, if_neg h0]
      constructor
      · intro h1
        rcases Nat.mod_two_eq_zero_or_one n with hp | hp
        · have h2 : popCountGo fuel (n / 2) = 1 := by omega
          obtain ⟨k, hk⟩ := (ih (n / 2) (by omega)).mp h2
          refine ⟨k + 1, ?_⟩
          have hks : (2:Nat) ^ (k + 1) = 2 ^ k * 2 := pow_succ 2 k
          omega
        · have h2 : popCountGo fuel (n / 2) = 0 := by omega
          have h3 := (popCountGo_eq_zero_iff fuel (n / 2) (by omega)).mp h2
          exact ⟨0, by omega⟩
      · rintro ⟨k, rfl⟩
        cases k with
        | zero =>
          simp [popCountGo_zero]
        | succ k =>
          have hks : (2:Nat) ^ (k + 1) = 2 ^ k * 2 := pow_succ 2 k
          have hmod : 2 ^ (k + 1) % 2 = 0 := by omega
          have hdiv : 2 ^ (k + 1) / 2 = 2 ^ k := by omega
          rw [hmod, hdiv]
          have hk2 : 2 ^ k < 2 ^ fuel := by omega
          have := (ih (2 ^ k) hk2).mpr ⟨k, rfl⟩
          omega

theorem FFPOPCOUNT64_eq_one_iff (n : Nat) (hn : n < 2 ^ 64) :
    FFPOPCOUNT64 n = 1 ↔ ∃ k, n = 2 ^ k :=
  popCountGo_eq_one_iff 64 n hn

theorem bitLenGo_gt :
    ∀ fuel n, n < 2 ^ fuel → n < 2 ^ bitLenGo fuel n := by
  intro fuel
  induction fuel with
  | zero =>
    intro n hn
    simp at hn
    subst hn
    simp [bitLenGo]
  | succ fuel ih =>
    intro n hn
    by_cases h0 : n = 0
    · subst h0
      simp [bitLenGo]
    · simp only [bitLenGo, if_neg h0]
      have hps : (2:Nat) ^ (fuel + 1) = 2 ^ fuel * 2 := pow_succ 2 fuel
      have hih := ih (n / 2) (by omega)
      have hbs : (2:Nat) ^ (bitLenGo fuel (n / 2) + 1) =
          2 ^ bitLenGo fuel (n / 2) * 2 := pow_succ 2 _
      omega

theorem bitLenGo_le :
    ∀ fuel n k, n < 2 ^ k → bitLenGo fuel n ≤ k := by
  intro fuel
  induction fuel with
  | zero =>
    intro n k _
    simp [bitLenGo]
  | succ fuel ih =>
    intro n k hn
    by_cases h0 : n = 0
    · subst h0
      simp [bitLenGo]
    · simp only [bitLenGo, if_neg h0]
      cases k with
      | zero =>
        simp at hn
        omega
      | succ k =>
        have hps : (2:Nat) ^ (k + 1) = 2 ^ k * 2 := pow_succ 2 k
        have := ih (n / 2) k (by omega)
        omega

theorem nextPow2_ge (s : Nat) (h1 : 0 < s) (h2 : s ≤ 2 ^ 64) :
    s ≤ nextPow2 s := by
  have := bitLenGo_gt 64 (s - 1) (by omega)
  unfold nextPow2 FFBITLEN
  omega

theorem nextPow2_le_pow (s k : Nat) (h1 : 0 < s) (h2 : s ≤ 2 ^ k) :
    nextPow2 s ≤ 2 ^ k := by
  have hb := bitLenGo_le 64 (s - 1) k (by omega)
  unfold nextPow2 FFBITLEN
  exact Nat.pow_le_pow_right (by omega) hb

/-- Finite check: for every power of two from 16 to 2048 the default-build
size classing yields a bin whose slot size is exactly that power of
two. -/
theorem binAllocSize_pow2 :
    ∀ k, k < 12 → 4 ≤ k → binAllocSize (GET_BIN (2 ^ k)) = 2 ^ k := by
  decide

/-- First component of ffmalloc_large_from_pool: the aligned bump
address. -/
theorem from_pool_fst (size alignment : Nat) (pool : pagepool_t) :
    (ffmalloc_large_from_pool size alignment pool).1 =
      ALIGN_TO pool.nextFreePage alignment := by
  simp only [ffmalloc_large_from_pool]
  split_ifs <;> rfl

/-- C7 (corrected), counterexample: ffmemalign(4, 100) has an alignment
that is a power of two but smaller than sizeof(void*), so the claim
demands an EINVAL failure; the code instead explicitly allows it and
forwards the request to plain ffmalloc. -/
theorem ffmemalign_small_pow2_cex :
    ffmemalign 4 100 = .forwardMalloc 100 ∧
    ffmemalign 4 100 ≠ .einval := by
  refine ⟨by decide, by decide⟩

/-- C7 (amended): ffposix_memalign and ffaligned_alloc fail with EINVAL
(no allocation) whenever the alignment is below 8 or not a power of two;
ffmemalign fails with EINVAL only for a non-power-of-two alignment and
serves power-of-two alignments up to 8 with plain ffmalloc.  Every
successful aligned request obeys the alignment law: the small path rounds
the request to a power of two ≥ max(size, alignment) that is exactly a
bin class, so slot addresses (pool start page-aligned) are multiples of
the alignment and the usable size covers the request; the large path
places the allocation at ALIGN_TO(nextFreePage, alignment), a multiple of
the alignment, with at least the aligned size of room; the jumbo path
(only reachable with alignment ≤ PAGE_SIZE) returns the page-aligned pool
start, with the page-rounded pool covering the request. -/
theorem memalign_alignment_law (a s poolStart pageIdx slot storage : Nat)
    (pool : pagepool_t) (hs0 : 0 < s) (hsmax : s < SIZE_MAX - PAGE_SIZE)
    (ha64 : a < 2 ^ 64) (hpool : PAGE_SIZE ∣ poolStart)
    (hstor : PAGE_SIZE ∣ storage) :
    (a < 8 ∨ FFPOPCOUNT64 a ≠ 1 → ffposix_memalign a s = .einval) ∧
    (a < 8 ∨ FFPOPCOUNT64 a ≠ 1 → ffaligned_alloc a s = .einval) ∧
    (FFPOPCOUNT64 a ≠ 1 → ffmemalign a s = .einval) ∧
    (FFPOPCOUNT64 a = 1 → a ≤ 8 → ffmemalign a s = .forwardMalloc s) ∧
    (FFPOPCOUNT64 a = 1 → 8 < a → s ≤ HALF_PAGE → a ≤ HALF_PAGE →
      ffmemalign_internal a s =
        .small (if s ≤ a then a else nextPow2 s) ∧
      binAllocSize (GET_BIN (if s ≤ a then a else nextPow2 s)) =
        (if s ≤ a then a else nextPow2 s) ∧
      s ≤ (if s ≤ a then a else nextPow2 s) ∧
      a ∣ small_alloc_addr poolStart pageIdx slot
        (if s ≤ a then a else nextPow2 s)) ∧
    (FFPOPCOUNT64 a = 1 →
      a ∣ (ffmalloc_large_from_pool (ALIGN_SIZE s) a pool).1 ∧
      s ≤ ALIGN_SIZE s ∧
      (ALIGN_TO pool.nextFreePage a + ALIGN_SIZE s ≤ pool.endA →
        (ffmalloc_large_from_pool (ALIGN_SIZE s) a pool).1 +
            ALIGN_SIZE s ≤
          (ffmalloc_large_from_pool
            (ALIGN_SIZE s) a pool).2.nextFreePage)) ∧
    (FFPOPCOUNT64 a = 1 → a ≤ PAGE_SIZE →
      a ∣ storage ∧
      s ≤ (create_jumbopool storage (ALIGN_SIZE s)).endA - storage) := by
  have hH : HALF_PAGE = 2048 := rfl
  have h12 : PAGE_SIZE = 2 ^ 12 := by decide
  have hsznn : ¬ (s = 0 ∨ s ≥ SIZE_MAX - PAGE_SIZE) := by omega
  refine ⟨?_, ?_, ?_, ?_, ?_, ?_, ?_⟩
  · intro hbad
    simp only [ffposix_memalign, if_neg hsznn]
    rw [if_pos hbad]
  · intro hbad
    simp only [ffaligned_alloc, if_neg hsznn]
    rw [if_pos hbad]
  · intro hbad
    simp only [ffmemalign, if_neg hsznn]
    rw [if_pos hbad]
  · intro hpc ha8
    simp only [ffmemalign, if_neg hsznn]
    rw [if_neg (not_not_intro hpc), if_pos ha8]
  · intro hpc ha8 hsH haH
    obtain ⟨j, haj⟩ := (FFPOPCOUNT64_eq_one_iff a ha64).mp hpc
    have h16 : (2:Nat) ^ 4 = 16 := by norm_num
    have h8 : (2:Nat) ^ 3 = 8 := by norm_num
    have h2048 : (2:Nat) ^ 11 = 2048 := by norm_num
    have hj4 : 4 ≤ j := by
      by_contra hc
      push_neg at hc
      have := (pow2_le_pow2_iff j 3).mpr (by omega)
      omega
    have hj11 : j ≤ 11 := by
      have := (pow2_le_pow2_iff j 11).mp (by omega)
      omega
    have ha16 : 16 ≤ a := by
      have := (pow2_le_pow2_iff 4 j).mpr hj4
      omega
    have hs64 : s ≤ 2 ^ 64 := by
      have : (2048:Nat) ≤ 2 ^ 64 := by decide
      omega
    refine ⟨?_, ?_, ?_, ?_⟩
    · simp only [ffmemalign_internal,
        if_pos (⟨hsH, haH⟩ : s ≤ HALF_PAGE ∧ a ≤ HALF_PAGE)]
      split_ifs <;> rfl
    · by_cases hsa : s ≤ a
      · rw [if_pos hsa, haj]
        exact binAllocSize_pow2 j (by omega) hj4
      · rw [if_neg hsa]
        have hgt := bitLenGo_gt 64 (s - 1) (by
          have : (2048:Nat) < 2 ^ 64 := by decide
          omega)
        have hm4 : 4 ≤ bitLenGo 64 (s - 1) := by
          by_contra hc
          push_neg at hc
          have := (pow2_le_pow2_iff (bitLenGo 64 (s - 1)) 3).mpr (by omega)
          omega
        have hm11 : bitLenGo 64 (s - 1) ≤ 11 :=
          bitLenGo_le 64 (s - 1) 11 (by omega)
        show binAllocSize (GET_BIN (nextPow2 s)) = nextPow2 s
        unfold nextPow2 FFBITLEN
        exact binAllocSize_pow2 _ (by omega) hm4
    · by_cases hsa : s ≤ a
      · rw [if_pos hsa]
        exact hsa
      · rw [if_neg hsa]
        exact nextPow2_ge s hs0 hs64
    · have hdiv4096 : a ∣ PAGE_SIZE := by
        rw [haj, h12]
        exact pow_dvd_pow 2 (by omega)
      have hdivStart : a ∣ poolStart := dvd_trans hdiv4096 hpool
      have hdivr : a ∣ (if s ≤ a then a else nextPow2 s) := by
        by_cases hsa : s ≤ a
        · rw [if_pos hsa]
        · rw [if_neg hsa]
          have hnge := nextPow2_ge s hs0 hs64
          have hlt : 2 ^ j < 2 ^ FFBITLEN (s - 1) := by
            unfold nextPow2 at hnge
            omega
          rw [haj]
          unfold nextPow2
          apply pow_dvd_pow
          by_contra hc
          push_neg at hc
          have := (pow2_le_pow2_iff (FFBITLEN (s - 1)) j).mpr (by omega)
          omega
      unfold small_alloc_addr
      exact dvd_add (dvd_add hdivStart (hdiv4096.mul_left pageIdx))
        (hdivr.mul_left slot)
  · intro hpc
    obtain ⟨j, haj⟩ := (FFPOPCOUNT64_eq_one_iff a ha64).mp hpc
    have hapos : 0 < a := by
      have := pow_pos (by omega : (0:Nat) < 2) j
      omega
    refine ⟨?_, ALIGN_SIZE_ge s, ?_⟩
    · rw [from_pool_fst]
      exact ALIGN_TO_dvd _ _ hapos
    · intro hfit
      rw [from_pool_fst]
      simp only [ffmalloc_large_from_pool]
      split_ifs <;> first | exact hfit | exact Nat.le_refl _
  · intro hpc haP
    obtain ⟨j, haj⟩ := (FFPOPCOUNT64_eq_one_iff a ha64).mp hpc
    have hj12 : j ≤ 12 := by
      have := (pow2_le_pow2_iff j 12).mp (by omega)
      omega
    refine ⟨?_, ?_⟩
    · rw [haj]
      exact dvd_trans (by rw [h12]; exact pow_dvd_pow 2 hj12) hstor
    · have h1 := ALIGN_TO_le (ALIGN_SIZE s) PAGE_SIZE (by decide)
      have h2 := ALIGN_SIZE_ge s
      show s ≤ storage + ALIGN_TO (ALIGN_SIZE s) PAGE_SIZE - storage
      omega

/-- C7 witness: alignment 16 and size 32 at a page-aligned pool. -/
theorem memalign_alignment_law_witness :
    (0:Nat) < 32 ∧ (32:Nat) < SIZE_MAX - PAGE_SIZE ∧ (16:Nat) < 2 ^ 64 ∧
    PAGE_SIZE ∣ (4096:Nat) ∧
    ((16 < 8 ∨ FFPOPCOUNT64 16 ≠ 1 → ffposix_memalign 16 32 = .einval) ∧
      (16 < 8 ∨ FFPOPCOUNT64 16 ≠ 1 →
        ffaligned_alloc 16 32 = .einval) ∧
      (FFPOPCOUNT64 16 ≠ 1 → ffmemalign 16 32 = .einval) ∧
      (FFPOPCOUNT64 16 = 1 → (16:Nat) ≤ 8 →
        ffmemalign 16 32 = .forwardMalloc 32) ∧
      (FFPOPCOUNT64 16 = 1 → (8:Nat) < 16 → (32:Nat) ≤ HALF_PAGE →
        (16:Nat) ≤ HALF_PAGE →
        ffmemalign_internal 16 32 =
          .small (if (32:Nat) ≤ 16 then 16 else nextPow2 32) ∧
        binAllocSize (GET_BIN (if (32:Nat) ≤ 16 then 16
            else nextPow2 32)) =
          (if (32:Nat) ≤ 16 then 16 else nextPow2 32) ∧
        (32:Nat) ≤ (if (32:Nat) ≤ 16 then 16 else nextPow2 32) ∧
        (16:Nat) ∣ small_alloc_addr 4096 1 2
          (if (32:Nat) ≤ 16 then 16 else nextPow2 32)) ∧
      (FFPOPCOUNT64 16 = 1 →
        (16:Nat) ∣ (ffmalloc_large_from_pool (ALIGN_SIZE 32) 16
          ⟨0, POOL_SIZE, 0, 0, [], [0]⟩).1 ∧
        (32:Nat) ≤ ALIGN_SIZE 32 ∧
        (ALIGN_TO (⟨0, POOL_SIZE, 0, 0, [], [0]⟩ :
              pagepool_t).nextFreePage 16 + ALIGN_SIZE 32 ≤
            (⟨0, POOL_SIZE, 0, 0, [], [0]⟩ : pagepool_t).endA →
          (ffmalloc_large_from_pool (ALIGN_SIZE 32) 16
              ⟨0, POOL_SIZE, 0, 0, [], [0]⟩).1 + ALIGN_SIZE 32 ≤
            (ffmalloc_large_from_pool (ALIGN_SIZE 32) 16
              ⟨0, POOL_SIZE, 0, 0, [], [0]⟩).2.nextFreePage)) ∧
      (FFPOPCOUNT64 16 = 1 → (16:Nat) ≤ PAGE_SIZE →
        (16:Nat) ∣ 4096 ∧
        (32:Nat) ≤ (create_jumbopool 4096 (ALIGN_SIZE 32)).endA - 4096)) :=
  ⟨by decide, by decide, by decide, by decide,
    memalign_alignment_law 16 32 4096 1 2 4096
      ⟨0, POOL_SIZE, 0, 0, [], [0]⟩ (by decide) (by decide) (by decide)
      (by decide) (by decide)⟩

end FFMalloc
